import Mathlib

/-!
Verification development for the mtb-suspension kinematics core.

This file gives a shallow embedding, over the real numbers, of the
TypeScript modules `src/lib/types.ts`, `src/lib/geometry.ts` and
`src/lib/kinematics.ts`, and proves (or refutes) the specification
claims about them.

Conventions of the embedding:
- JavaScript numbers are modelled as real numbers (`ℝ`).  `Math.sqrt`,
  `Math.sin`, `Math.cos`, `Math.asin`, `Math.acos`, `Math.abs`,
  `Math.min`, `Math.max` and `Math.PI` are modelled by `Real.sqrt`,
  `Real.sin`, `Real.cos`, `Real.arcsin`, `Real.arccos`, `|·|`, `min`,
  `max` and `Real.pi`; `Math.atan2(y, x)` by the argument of the complex
  number `x + y*I` (`Complex.arg`, the same principal value in
  `(-pi, pi]`).  The Mathlib inverse trigonometric functions are total
  (clamped) where JavaScript produces `NaN`; where a claim is about
  `NaN` behaviour itself (the tangent-point function) a dedicated model
  `JNum` of the JavaScript number line with `NaN` and infinities is used.
- `null`-returning functions are modelled with `Option`.
- The repository contains two revisions of `geometry.ts`; we embed the
  revision that defines `tangentPoints` and `transformPointByReferenceLine`
  (the one whose exports match the imports of `kinematics.ts` and whose
  `calculateChainLength` matches the unit tests in `geometry.test.ts`).
- The imperative loops of `runKinematicAnalysis` build the state arrays
  index by index; they are embedded as maps over `List.range`, with the
  array element at index `i` given by an index-parameterised function.
-/

namespace MTB

noncomputable section

attribute [instance] Classical.propDecidable

/-- Embeds `Point2D` from `types.ts`: a 2D point with millimetre coordinates. -/
structure Point2D where
  x : ℝ
  y : ℝ

def Point2D.add (a b : Point2D) : Point2D := ⟨a.x + b.x, a.y + b.y⟩

def Point2D.subtract (a b : Point2D) : Point2D := ⟨a.x - b.x, a.y - b.y⟩

def Point2D.multiply (p : Point2D) (s : ℝ) : Point2D := ⟨p.x * s, p.y * s⟩

/-- The idler mount variants from `types.ts`. -/
inductive IdlerType where
  | None
  | FrameMounted
  | SwingarmMounted

/-- Embeds `BikeGeometry` from `types.ts`: the immutable input record. -/
structure BikeGeometry where
  bbHeight : ℝ
  stack : ℝ
  reach : ℝ
  headAngle : ℝ
  headTubeLength : ℝ
  seatAngle : ℝ
  bbToPivotX : ℝ
  bbToPivotY : ℝ
  forkLength : ℝ
  forkOffset : ℝ
  totalTravel : ℝ
  swingarmLength : ℝ
  shockFrameMountX : ℝ
  shockFrameMountY : ℝ
  shockSwingarmMountDistance : ℝ
  shockStroke : ℝ
  shockETE : ℝ
  shockSpringRate : ℝ
  chainringTeeth : ℝ
  cogTeeth : ℝ
  chainringOffsetX : ℝ
  chainringOffsetY : ℝ
  idlerType : IdlerType
  idlerX : ℝ
  idlerY : ℝ
  idlerTeeth : ℝ
  comX : ℝ
  comY : ℝ
  frontWheelDiameter : ℝ
  rearWheelDiameter : ℝ
  forkTravel : ℝ
  forkCompressionPercent : ℝ
  seatTubeLength : ℝ

/-- Embeds `createDefaultGeometry` from `types.ts`. -/
def createDefaultGeometry : BikeGeometry where
  bbHeight := 330
  stack := 625
  reach := 490
  headAngle := 64
  headTubeLength := 80
  seatAngle := 76
  bbToPivotX := -80
  bbToPivotY := 210
  forkLength := 590
  forkOffset := 44
  totalTravel := 150
  swingarmLength := 440
  shockFrameMountX := 30
  shockFrameMountY := 70
  shockSwingarmMountDistance := 190
  shockStroke := 65
  shockETE := 210
  shockSpringRate := 60
  chainringTeeth := 32
  cogTeeth := 28
  chainringOffsetX := 0
  chainringOffsetY := 0
  idlerType := IdlerType.None
  idlerX := -60
  idlerY := 160
  idlerTeeth := 16
  comX := 100
  comY := 860
  frontWheelDiameter := 750
  rearWheelDiameter := 750
  forkTravel := 170
  forkCompressionPercent := 0
  seatTubeLength := 320

/-- Embeds `KinematicStateFirstPass` from `types.ts`. -/
structure KinematicStateFirstPass where
  travelMM : ℝ
  rearAxlePosition : Point2D
  bbPosition : Point2D
  pivotPosition : Point2D
  swingarmEyePosition : Point2D
  shockLength : ℝ
  pitchAngleDegrees : ℝ

/-- Embeds `KinematicState` from `types.ts` (extends the first-pass state). -/
structure KinematicState extends KinematicStateFirstPass where
  frontAxlePosition : Point2D
  forkCompression : ℝ
  leverageRatio : ℝ
  wheelRate : ℝ
  antiSquat : ℝ
  antiRise : ℝ
  pedalKickback : ℝ
  chainGrowth : ℝ
  totalChainGrowth : ℝ
  trail : ℝ
  crankAngle : ℝ

/-- Embeds `AnalysisResults` from `types.ts`. -/
structure AnalysisResults where
  states : List KinematicState
  axlePath : List Point2D
  frontAxlePath : List Point2D

/-- Embeds `Circle` record used by the kinematics module. -/
structure Circle where
  center : Point2D
  radius : ℝ

/-- Embeds `computedProperties.frontWheelRadius` from `types.ts`. -/
def frontWheelRadius (g : BikeGeometry) : ℝ := g.frontWheelDiameter / 2

/-- Embeds `computedProperties.rearWheelRadius` from `types.ts`. -/
def rearWheelRadius (g : BikeGeometry) : ℝ := g.rearWheelDiameter / 2

/-- Embeds `computedProperties.headTubeAngleRadians` from `types.ts`. -/
def headTubeAngleRadians (g : BikeGeometry) : ℝ := g.headAngle * Real.pi / 180

/-- Embeds `computedProperties.headTubeTop` from `types.ts`.  (The call site in
`computeTrail` passes an extra `bbPosition` argument, which the
JavaScript function ignores; the embedding therefore ignores it too.) -/
def headTubeTop (g : BikeGeometry) : Point2D := ⟨g.reach, g.stack⟩

/-- Embeds `computedProperties.headTubeBottom` from `types.ts`. -/
def headTubeBottom (g : BikeGeometry) : Point2D :=
  let t := headTubeTop g
  let htaRad := headTubeAngleRadians g
  ⟨t.x + g.headTubeLength * Real.cos htaRad, t.y - g.headTubeLength * Real.sin htaRad⟩

/-! ## Planar geometry kernel (`geometry.ts`) -/

/-- Embeds `Math.atan2(y, x)` as the principal argument of `x + y*I`. -/
def atan2 (y x : ℝ) : ℝ := Complex.arg ⟨x, y⟩

/-- Embeds `distance` from `geometry.ts`: Euclidean distance between two points
(`magnitude` of the coordinate differences). -/
def distance (p q : Point2D) : ℝ :=
  Real.sqrt ((q.x - p.x) * (q.x - p.x) + (q.y - p.y) * (q.y - p.y))

/-- Embeds `angle` from `geometry.ts`: `atan2(Δy, Δx)` of the vector `p → q`. -/
def angle (p q : Point2D) : ℝ := atan2 (q.y - p.y) (q.x - p.x)

/-- Embeds `dot` from `geometry.ts`. -/
def dot (p q : Point2D) : ℝ := p.x * q.x + p.y * q.y

/-- Embeds `cross` from `geometry.ts`. -/
def cross (p q : Point2D) : ℝ := p.x * q.y - p.y * q.x

/-- Embeds `magnitude` from `geometry.ts`. -/
def magnitude (p : Point2D) : ℝ := Real.sqrt (dot p p)

/-- Embeds `normalise` from `geometry.ts`. -/
def normalise (p : Point2D) : Point2D := Point2D.multiply p (1 / magnitude p)

/-- Embeds `lineIntersection` from `geometry.ts`: intersection of two infinite
lines, `none` (JavaScript `null`) when the determinant is below `1e-4`. -/
def lineIntersection (l1p1 l1p2 l2p1 l2p2 : Point2D) : Option Point2D :=
  let x1 := l1p1.x; let y1 := l1p1.y
  let x2 := l1p2.x; let y2 := l1p2.y
  let x3 := l2p1.x; let y3 := l2p1.y
  let x4 := l2p2.x; let y4 := l2p2.y
  let denom := (x1 - x2) * (y3 - y4) - (y1 - y2) * (x3 - x4)
  if |denom| < 0.0001 then none
  else
    let t := ((x1 - x3) * (y3 - y4) - (y1 - y3) * (x3 - x4)) / denom
    some ⟨x1 + t * (x2 - x1), y1 + t * (y2 - y1)⟩

/-- Embeds `sprocketRadius` from `geometry.ts`: pitch-circle radius for a tooth
count at the standard 12.7mm chain pitch. -/
def sprocketRadius (teeth : ℝ) : ℝ := teeth * 12.7 / (2 * Real.pi)

/-- Embeds `calculateChainLength` from `geometry.ts` (the revision matching the
unit tests): two tangent spans plus the two wrap arcs, degenerating to
the raw centre distance when one circle is nested inside the other. -/
def calculateChainLength (p q : Point2D) (chainringRadius cogRadius : ℝ) : ℝ :=
  let centerDist := distance p q
  if centerDist < |chainringRadius - cogRadius| then centerDist
  else
    let radiusDiff := chainringRadius - cogRadius
    let tangentLength := Real.sqrt (centerDist * centerDist - radiusDiff * radiusDiff)
    let alpha := Real.arcsin (radiusDiff / centerDist)
    let chainringWrap := Real.pi + alpha
    let cogWrap := Real.pi - alpha
    let chainringArc := chainringRadius * chainringWrap
    let cogArc := cogRadius * cogWrap
    2 * tangentLength + chainringArc + cogArc

/-- The along-axis offset `a` computed by `circleCircleIntersection`. -/
def ccA (center1 : Point2D) (radius1 : ℝ) (center2 : Point2D) (radius2 : ℝ) : ℝ :=
  let d := distance center1 center2
  (radius1 * radius1 - radius2 * radius2 + d * d) / (2 * d)

/-- The perpendicular offset `h` computed by `circleCircleIntersection`. -/
def ccH (center1 : Point2D) (radius1 : ℝ) (center2 : Point2D) (radius2 : ℝ) : ℝ :=
  Real.sqrt (radius1 * radius1
    - ccA center1 radius1 center2 radius2 * ccA center1 radius1 center2 radius2)

/-- The first intersection point computed by `circleCircleIntersection`
(`px + offsetX, py + offsetY`). -/
def ccP1 (center1 : Point2D) (radius1 : ℝ) (center2 : Point2D) (radius2 : ℝ) : Point2D :=
  let d := distance center1 center2
  let a := ccA center1 radius1 center2 radius2
  let h := ccH center1 radius1 center2 radius2
  ⟨center1.x + a / d * (center2.x - center1.x) + h / d * (center2.y - center1.y),
   center1.y + a / d * (center2.y - center1.y) + h / d * (center1.x - center2.x)⟩

/-- The second intersection point computed by `circleCircleIntersection`
(`px - offsetX, py - offsetY`). -/
def ccP2 (center1 : Point2D) (radius1 : ℝ) (center2 : Point2D) (radius2 : ℝ) : Point2D :=
  let d := distance center1 center2
  let a := ccA center1 radius1 center2 radius2
  let h := ccH center1 radius1 center2 radius2
  ⟨center1.x + a / d * (center2.x - center1.x) - h / d * (center2.y - center1.y),
   center1.y + a / d * (center2.y - center1.y) - h / d * (center1.x - center2.x)⟩

/-- Embeds `circleCircleIntersection` from `geometry.ts`: empty when the circles
are disjoint, nested, or concentric; otherwise the two intersection
points from the perpendicular-offset formula. -/
def circleCircleIntersection (center1 : Point2D) (radius1 : ℝ)
    (center2 : Point2D) (radius2 : ℝ) : List Point2D :=
  let d := distance center1 center2
  if d > radius1 + radius2 ∨ d < |radius1 - radius2| ∨ d = 0 then []
  else [ccP1 center1 radius1 center2 radius2, ccP2 center1 radius1 center2 radius2]

/-- Result record of `tangentPoints` (JavaScript `{start, end}`; the
reserved word `end` is rendered as `endPt`). -/
structure TangentPts where
  start : Point2D
  endPt : Point2D

/-- Embeds `tangentPoints` from `geometry.ts` in the real-number semantics used
by the analysis pipeline: the upper common tangent touch points, with
the `asin` argument clamped to `[-1, 1]`. -/
def tangentPoints (center1 : Point2D) (radius1 : ℝ)
    (center2 : Point2D) (radius2 : ℝ) : TangentPts :=
  let dx := center2.x - center1.x
  let dy := center2.y - center1.y
  let dist := Real.sqrt (dx * dx + dy * dy)
  let ang := atan2 dy dx
  let radiusDiff := radius1 - radius2
  let tangentAngle := Real.arcsin (max (-1) (min 1 (radiusDiff / dist)))
  let upperAngle := ang + tangentAngle
  { start := ⟨center1.x + radius1 * Real.sin upperAngle,
              center1.y - radius1 * Real.cos upperAngle⟩
    endPt := ⟨center2.x + radius2 * Real.sin upperAngle,
              center2.y - radius2 * Real.cos upperAngle⟩ }

/-- Embeds `transformPointByReferenceLine` from `geometry.ts`: carries `I0`,
expressed relative to the segment `P0 → A0`, to the rotated frame of the
segment `P1 → A1`. -/
def transformPointByReferenceLine (P0 A0 I0 P1 A1 : Point2D) : Point2D :=
  let d0 := normalise (Point2D.subtract A0 P0)
  let d1 := normalise (Point2D.subtract A1 P1)
  let c := dot d0 d1
  let s := cross d0 d1
  let local0 := Point2D.subtract I0 P0
  let rotated : Point2D := ⟨c * local0.x - s * local0.y, s * local0.x + c * local0.y⟩
  Point2D.add P1 rotated

/-- Modelled from the spec: `lineIntersectionWithVertical` is imported by
`kinematics.ts` but its definition is not among the sources; per the spec
it projects the line through two points onto "the vertical line through
the front axle X position".  It returns the point of the line `p → q` at
abscissa `vx`, or `none` when that line is itself vertical. -/
def lineIntersectionWithVertical (p q : Point2D) (vx : ℝ) : Option Point2D :=
  if q.x - p.x = 0 then none
  else some ⟨vx, p.y + (vx - p.x) * (q.y - p.y) / (q.x - p.x)⟩

/-! ## JavaScript number-line model for NaN tracking

The claims about `tangentPoints` concern `NaN` production, which the
real-number semantics cannot express.  `JNum` models the JavaScript
number line: finite values, the two infinities, and `NaN`, with the
operations used by `tangentPoints` given their IEEE/ECMAScript
semantics. -/

inductive JNum where
  | real : ℝ → JNum
  | posInf : JNum
  | negInf : JNum
  | nan : JNum

/-- Whether a JavaScript number is an ordinary finite real. -/
def JNum.isReal : JNum → Bool
  | JNum.real _ => true
  | _ => false

/-- JavaScript division of two finite numbers: `x/0` is a signed
infinity for `x ≠ 0` and `NaN` for `x = 0`. -/
def jdiv (x y : ℝ) : JNum :=
  if y = 0 then
    if x = 0 then JNum.nan else if 0 < x then JNum.posInf else JNum.negInf
  else JNum.real (x / y)

/-- Embeds `Math.min(a, t)` for finite `a`; it propagates `NaN`. -/
def jminReal (a : ℝ) : JNum → JNum
  | JNum.real y => JNum.real (min a y)
  | JNum.posInf => JNum.real a
  | JNum.negInf => JNum.negInf
  | JNum.nan => JNum.nan

/-- Embeds `Math.max(a, t)` for finite `a`; it propagates `NaN`. -/
def jmaxReal (a : ℝ) : JNum → JNum
  | JNum.real y => JNum.real (max a y)
  | JNum.posInf => JNum.posInf
  | JNum.negInf => JNum.real a
  | JNum.nan => JNum.nan

/-- Embeds `Math.asin`: `NaN` outside `[-1, 1]` and on non-finite input. -/
def jasin : JNum → JNum
  | JNum.real y => if -1 ≤ y ∧ y ≤ 1 then JNum.real (Real.arcsin y) else JNum.nan
  | _ => JNum.nan

/-- Addition of a finite number to a JavaScript number. -/
def jaddReal (a : ℝ) : JNum → JNum
  | JNum.real y => JNum.real (a + y)
  | JNum.posInf => JNum.posInf
  | JNum.negInf => JNum.negInf
  | JNum.nan => JNum.nan

/-- Subtraction of a JavaScript number from a finite number. -/
def jsubReal (a : ℝ) : JNum → JNum
  | JNum.real y => JNum.real (a - y)
  | JNum.posInf => JNum.negInf
  | JNum.negInf => JNum.posInf
  | JNum.nan => JNum.nan

/-- Multiplication by a finite number; `0 * ±∞` is `NaN`. -/
def jmulReal (a : ℝ) : JNum → JNum
  | JNum.real y => JNum.real (a * y)
  | JNum.posInf => if 0 < a then JNum.posInf else if a < 0 then JNum.negInf else JNum.nan
  | JNum.negInf => if 0 < a then JNum.negInf else if a < 0 then JNum.posInf else JNum.nan
  | JNum.nan => JNum.nan

/-- Embeds `Math.sin`: `NaN` on non-finite input. -/
def jsin : JNum → JNum
  | JNum.real y => JNum.real (Real.sin y)
  | _ => JNum.nan

/-- Embeds `Math.cos`: `NaN` on non-finite input. -/
def jcos : JNum → JNum
  | JNum.real y => JNum.real (Real.cos y)
  | _ => JNum.nan

/-- The four coordinates produced by `tangentPoints` in the JavaScript
number model. -/
structure JTangent where
  startX : JNum
  startY : JNum
  endX : JNum
  endY : JNum

/-- Embeds `tangentPoints` from `geometry.ts`, embedded over the JavaScript
number model `JNum` so that `NaN` production is tracked faithfully.
`dx`, `dy`, `dist` and the `atan2` angle are always finite reals (the
square-root argument is a sum of squares); the first `NaN`-capable step
is the ratio `radiusDiff / dist`. -/
def tangentPointsJS (center1 : Point2D) (radius1 : ℝ)
    (center2 : Point2D) (radius2 : ℝ) : JTangent :=
  let dx := center2.x - center1.x
  let dy := center2.y - center1.y
  let dist := Real.sqrt (dx * dx + dy * dy)
  let ang := atan2 dy dx
  let radiusDiff := radius1 - radius2
  let tangentAngle := jasin (jmaxReal (-1) (jminReal 1 (jdiv radiusDiff dist)))
  let upperAngle := jaddReal ang tangentAngle
  { startX := jaddReal center1.x (jmulReal radius1 (jsin upperAngle))
    startY := jsubReal center1.y (jmulReal radius1 (jcos upperAngle))
    endX := jaddReal center2.x (jmulReal radius2 (jsin upperAngle))
    endY := jsubReal center2.y (jmulReal radius2 (jcos upperAngle)) }

/-! ## Kinematics engine (`kinematics.ts`) -/

/-- Embeds `RigidTriangle` from `kinematics.ts`: the fixed side lengths of the
pivot/shock-eye/rear-axle triangle plus the two disambiguation flags
fixed at top-out.  The JavaScript boolean `axleAngleIsPositive` is
modelled as a proposition. -/
structure RigidTriangle where
  pivotToEye : ℝ
  pivotToAxle : ℝ
  eyeToAxle : ℝ
  correctEyeIndex : ℕ
  axleAngleIsPositive : Prop

/-- The main-pivot position at top-out (`pivot` in both
`establishRigidTriangle` and `calculateStateAtShockStroke`). -/
def topOutPivot (g : BikeGeometry) : Point2D :=
  ⟨g.bbToPivotX, g.bbHeight + g.bbToPivotY⟩

/-- The shock frame-mount position at top-out (`frameMount` in both
`establishRigidTriangle` and `calculateStateAtShockStroke`). -/
def topOutFrameMount (g : BikeGeometry) : Point2D :=
  ⟨g.shockFrameMountX, g.bbHeight + g.shockFrameMountY⟩

/-- The shock-eye candidates computed by `calculateStateAtShockStroke`
for a given shock stroke: intersection of the swingarm-mount circle
around the pivot with the current shock-length circle around the frame
mount. -/
def strokeEyeCandidates (g : BikeGeometry) (shockStroke : ℝ) : List Point2D :=
  circleCircleIntersection (topOutPivot g) g.shockSwingarmMountDistance
    (topOutFrameMount g) (g.shockETE - shockStroke)

/-- The shock-eye candidates computed by `establishRigidTriangle` at
top-out (shock length equal to the eye-to-eye length). -/
def topOutEyeCandidates (g : BikeGeometry) : List Point2D :=
  circleCircleIntersection (topOutPivot g) g.shockSwingarmMountDistance
    (topOutFrameMount g) g.shockETE

/-- Embeds `verticalDist` in `establishRigidTriangle`: signed vertical offset
from the pivot down to the rear-axle height (the rear wheel radius). -/
def verticalDist (g : BikeGeometry) : ℝ :=
  rearWheelRadius g - (topOutPivot g).y

/-- Embeds `horizontalDistSquared` in `establishRigidTriangle`: the Pythagorean
term whose sign decides geometric feasibility of the swingarm at
top-out. -/
def horizontalDistSquared (g : BikeGeometry) : ℝ :=
  g.swingarmLength * g.swingarmLength - verticalDist g * verticalDist g

/-- The fallback `RigidTriangle` returned by `establishRigidTriangle` on
either degenerate branch: nominal geometry values in place of the solved
side lengths. -/
def fallbackTriangle (g : BikeGeometry) : RigidTriangle where
  pivotToEye := g.shockSwingarmMountDistance
  pivotToAxle := g.swingarmLength
  eyeToAxle := g.swingarmLength
  correctEyeIndex := 0
  axleAngleIsPositive := True

/-- The top-out rear-axle position solved by `establishRigidTriangle`:
of the two horizontal solutions it keeps the one with smaller x. -/
def topOutAxle (g : BikeGeometry) : Point2D :=
  let horizontalDist := Real.sqrt (horizontalDistSquared g)
  let axle1 : Point2D := ⟨(topOutPivot g).x + horizontalDist, rearWheelRadius g⟩
  let axle2 : Point2D := ⟨(topOutPivot g).x - horizontalDist, rearWheelRadius g⟩
  if axle1.x < axle2.x then axle1 else axle2

/-- The eye-candidate index chosen at top-out: the candidate with the
greater x coordinate.  (Out-of-range list access, which cannot occur in
the guarded branch where the list has length 2, is modelled by `getD`
with an arbitrary default.) -/
def correctEyeIndexTopOut (g : BikeGeometry) : ℕ :=
  if ((topOutEyeCandidates g).getD 0 ⟨0, 0⟩).x > ((topOutEyeCandidates g).getD 1 ⟨0, 0⟩).x
  then 0 else 1

/-- The chosen top-out shock-eye position. -/
def chosenEyeTopOut (g : BikeGeometry) : Point2D :=
  (topOutEyeCandidates g).getD (correctEyeIndexTopOut g) ⟨0, 0⟩

/-- Embeds `establishRigidTriangle` from `kinematics.ts`: solves the top-out
configuration once, returning the fixed triangle side lengths and the
two disambiguation flags, or the fallback triangle on a degenerate
branch. -/
def establishRigidTriangle (g : BikeGeometry) : RigidTriangle :=
  if (topOutEyeCandidates g).length ≠ 2 then fallbackTriangle g
  else if horizontalDistSquared g < 0 then fallbackTriangle g
  else
    let pivot := topOutPivot g
    let chosenEye := chosenEyeTopOut g
    let axle := topOutAxle g
    let pivotToEyeDist := distance pivot chosenEye
    let pivotToAxleDist := distance pivot axle
    let eyeToAxleDist := distance chosenEye axle
    let cosAngle :=
      (pivotToEyeDist * pivotToEyeDist + pivotToAxleDist * pivotToAxleDist
        - eyeToAxleDist * eyeToAxleDist) / (2 * pivotToEyeDist * pivotToAxleDist)
    let angleAtPivot := Real.arccos cosAngle
    let pivotToEyeAngle := angle pivot chosenEye
    let testAnglePlus := pivotToEyeAngle + angleAtPivot
    let testAngleMinus := pivotToEyeAngle - angleAtPivot
    let testAxlePlus : Point2D :=
      ⟨pivot.x + pivotToAxleDist * Real.cos testAnglePlus,
       pivot.y + pivotToAxleDist * Real.sin testAnglePlus⟩
    let testAxleMinus : Point2D :=
      ⟨pivot.x + pivotToAxleDist * Real.cos testAngleMinus,
       pivot.y + pivotToAxleDist * Real.sin testAngleMinus⟩
    { pivotToEye := pivotToEyeDist
      pivotToAxle := pivotToAxleDist
      eyeToAxle := eyeToAxleDist
      correctEyeIndex := correctEyeIndexTopOut g
      axleAngleIsPositive := distance testAxlePlus axle < distance testAxleMinus axle }

/-- The shock-eye candidate selected by `calculateStateAtShockStroke`
for a given stroke: the candidate at the index locked in at top-out. -/
def strokeChosenEye (g : BikeGeometry) (rt : RigidTriangle) (shockStroke : ℝ) : Point2D :=
  (strokeEyeCandidates g shockStroke).getD rt.correctEyeIndex ⟨0, 0⟩

/-- The law-of-cosines value `cosAngle` computed inside
`calculateStateAtShockStroke`: from the live pivot-to-eye distance and
the fixed triangle side lengths.  `Math.acos` of this value is `NaN` in
JavaScript whenever it falls outside `[-1, 1]`. -/
def strokeCosAngle (g : BikeGeometry) (rt : RigidTriangle) (shockStroke : ℝ) : ℝ :=
  let pivotToEyeDist := distance (topOutPivot g) (strokeChosenEye g rt shockStroke)
  let pivotToAxleDist := rt.pivotToAxle
  (pivotToEyeDist * pivotToEyeDist + pivotToAxleDist * pivotToAxleDist
    - rt.eyeToAxle * rt.eyeToAxle) / (2 * pivotToEyeDist * pivotToAxleDist)

/-- The axle angle used by `calculateStateAtShockStroke`: the angle of
the chosen eye as seen from the pivot, plus or minus the law-of-cosines
angle at the pivot, as fixed by the rigid triangle's orientation flag. -/
def strokeAxleAngle (g : BikeGeometry) (rt : RigidTriangle) (shockStroke : ℝ) : ℝ :=
  let angleAtPivot := Real.arccos (strokeCosAngle g rt shockStroke)
  let pivotToEyeAngle := angle (topOutPivot g) (strokeChosenEye g rt shockStroke)
  if rt.axleAngleIsPositive then pivotToEyeAngle + angleAtPivot
  else pivotToEyeAngle - angleAtPivot

/-- The `nominalAxle` of `calculateStateAtShockStroke`: the axle placed
at the fixed pivot-to-axle distance along the axle angle. -/
def strokeNominalAxle (g : BikeGeometry) (rt : RigidTriangle) (shockStroke : ℝ) : Point2D :=
  ⟨(topOutPivot g).x + rt.pivotToAxle * Real.cos (strokeAxleAngle g rt shockStroke),
   (topOutPivot g).y + rt.pivotToAxle * Real.sin (strokeAxleAngle g rt shockStroke)⟩

/-- The `groundOffset` of `calculateStateAtShockStroke`: how far the
whole frame must drop so the rear axle sits at wheel-radius height. -/
def strokeGroundOffset (g : BikeGeometry) (rt : RigidTriangle) (shockStroke : ℝ) : ℝ :=
  (strokeNominalAxle g rt shockStroke).y - rearWheelRadius g

/-- Embeds `calculateStateAtShockStroke` from `kinematics.ts`: re-solves the
rigid triangle at the given shock stroke, grounds the rear axle, and
returns the provisional (first-pass) kinematic state; on an empty
circle intersection it returns the degenerate state of the guard
branch. -/
def calculateStateAtShockStroke (shockStroke : ℝ) (g : BikeGeometry)
    (rigidTriangle : RigidTriangle) : KinematicStateFirstPass :=
  let rWR := rearWheelRadius g
  let currentShockLength := g.shockETE - shockStroke
  let pivot := topOutPivot g
  let eyeCandidates := strokeEyeCandidates g shockStroke
  if eyeCandidates.length = 0 then
    { travelMM := 0
      rearAxlePosition := ⟨0, rWR⟩
      bbPosition := ⟨0, g.bbHeight⟩
      pivotPosition := pivot
      swingarmEyePosition := ⟨0, 0⟩
      shockLength := currentShockLength
      pitchAngleDegrees := 0 }
  else
    let chosenEye := strokeChosenEye g rigidTriangle shockStroke
    let nominalAxle := strokeNominalAxle g rigidTriangle shockStroke
    let groundOffset := strokeGroundOffset g rigidTriangle shockStroke
    let bbY := g.bbHeight - groundOffset
    let rearAxlePos : Point2D := ⟨nominalAxle.x, rWR⟩
    let bbPos : Point2D := ⟨0, bbY⟩
    let pivotPos : Point2D := ⟨g.bbToPivotX, pivot.y - groundOffset⟩
    let swingarmEyePos : Point2D := ⟨chosenEye.x, chosenEye.y - groundOffset⟩
    let finalFrameMount : Point2D := ⟨g.shockFrameMountX, bbY + g.shockFrameMountY⟩
    let htaRad := g.headAngle * (Real.pi / 180)
    let frontAxlePos : Point2D :=
      ⟨bbPos.x + g.reach + g.headTubeLength * Real.cos htaRad
         + g.forkLength * Real.cos htaRad + g.forkOffset * Real.sin htaRad,
       bbPos.y + g.stack - g.headTubeLength * Real.sin htaRad
         - g.forkLength * Real.sin htaRad + g.forkOffset * Real.cos htaRad⟩
    let dx := frontAxlePos.x - rearAxlePos.x
    let dy := frontAxlePos.y - rearAxlePos.y
    let centerDist := Real.sqrt (dx * dx + dy * dy)
    let centerAngle := atan2 dy dx
    let radiusDiff := frontWheelRadius g - rWR
    let angleOffset := Real.arcsin (radiusDiff / centerDist)
    let tangentAngle := centerAngle - angleOffset
    let pitchDeg := tangentAngle * 180 / Real.pi
    let wheelTravel := |g.bbHeight - bbY|
    let shockLen := distance finalFrameMount swingarmEyePos
    { travelMM := wheelTravel
      rearAxlePosition := rearAxlePos
      bbPosition := bbPos
      pivotPosition := pivotPos
      swingarmEyePosition := swingarmEyePos
      shockLength := shockLen
      pitchAngleDegrees := pitchDeg }

/-- Embeds `getApplyPitchRotation` from `kinematics.ts`: rotation by the
negated pitch angle about the rear axle. -/
def getApplyPitchRotation (rearAxle : Point2D) (pitchAngleDegrees : ℝ) :
    Point2D → Point2D := fun point =>
  let pitchRad := pitchAngleDegrees * (Real.pi / 180)
  let dx := point.x - rearAxle.x
  let dy := point.y - rearAxle.y
  let cosA := Real.cos (-pitchRad)
  let sinA := Real.sin (-pitchRad)
  ⟨rearAxle.x + dx * cosA - dy * sinA, rearAxle.y + dx * sinA + dy * cosA⟩

/-- Embeds `getIdlerPosition` from `kinematics.ts`. -/
def getIdlerPosition ( state : KinematicState) (g : BikeGeometry) : Option Point2D :=
  match g.idlerType with
  | IdlerType.None => none
  | IdlerType.FrameMounted =>
      some (Point2D.add state.bbPosition ⟨g.idlerX, g.idlerY⟩)
  | IdlerType.SwingarmMounted =>
      let rWR := rearWheelRadius g
      let topOutIdler : Point2D := ⟨g.idlerX, g.bbHeight + g.idlerY⟩
      let tPivot : Point2D := ⟨g.bbToPivotX, g.bbHeight + g.bbToPivotY⟩
      let vert := rWR - tPivot.y
      let horiz := Real.sqrt (g.swingarmLength * g.swingarmLength - vert * vert)
      let tAxle : Point2D := ⟨tPivot.x - horiz, rWR⟩
      some (transformPointByReferenceLine tPivot tAxle topOutIdler
        state.pivotPosition state.rearAxlePosition)

/-- Embeds `getFrontSprocketCircle` from `kinematics.ts`.  (The JavaScript `!`
assertion on the idler position, valid because the idler branch implies
a `some` result, is modelled by `getD`.) -/
def getFrontSprocketCircle ( state : KinematicState) (g : BikeGeometry) : Circle :=
  match g.idlerType with
  | IdlerType.None =>
      ⟨Point2D.add state.bbPosition ⟨g.chainringOffsetX, g.chainringOffsetY⟩,
       sprocketRadius g.chainringTeeth⟩
  | _ =>
      ⟨(getIdlerPosition state g).getD ⟨0, 0⟩, sprocketRadius g.idlerTeeth⟩

/-- Embeds `getRotatedCentreOfMass` from `kinematics.ts`. -/
def getRotatedCentreOfMass ( state : KinematicState) (g : BikeGeometry)
    (applyPitchRotation : Point2D → Point2D) : Point2D :=
  applyPitchRotation (Point2D.add state.bbPosition ⟨g.comX, g.comY⟩)

/-- Embeds `calculateVisualAntiSquat` from `kinematics.ts`: instant-force-center
projection of the chain line, as a percentage of the centre-of-mass
height; `0` on either intersection failure (the JavaScript code logs a
warning and returns 0). -/
def calculateVisualAntiSquat ( state : KinematicState) (g : BikeGeometry)
    (sprocketTangent : Bool := true) : ℝ :=
  let applyPitchRotation :=
    getApplyPitchRotation state.rearAxlePosition state.pitchAngleDegrees
  let frontSprocket := getFrontSprocketCircle state g
  let frontSprocketRotatedCenter := applyPitchRotation frontSprocket.center
  let rearSprocketRotatedCenter := applyPitchRotation state.rearAxlePosition
  let chainline :=
    if sprocketTangent then
      tangentPoints frontSprocketRotatedCenter frontSprocket.radius
        rearSprocketRotatedCenter (rearWheelRadius g)
    else ⟨frontSprocketRotatedCenter, rearSprocketRotatedCenter⟩
  let instantCenter := applyPitchRotation state.pivotPosition
  let rearAxleRotated := applyPitchRotation state.rearAxlePosition
  let frontAxleRotated := applyPitchRotation state.frontAxlePosition
  match lineIntersection chainline.start chainline.endPt instantCenter rearAxleRotated with
  | Option.none => 0
  | Option.some instantForceCenter =>
    let rearContactPatch : Point2D := ⟨rearAxleRotated.x, 0⟩
    match lineIntersectionWithVertical rearContactPatch instantForceCenter
        frontAxleRotated.x with
    | Option.none => 0
    | Option.some antiSquatIntersection =>
      let centreOfMassHeight := (getRotatedCentreOfMass state g applyPitchRotation).y
      antiSquatIntersection.y / centreOfMassHeight * 100

/-- Embeds `calculateVisualAntiRise` from `kinematics.ts`. -/
def calculateVisualAntiRise ( state : KinematicState) (g : BikeGeometry) : ℝ :=
  let applyPitchRotation :=
    getApplyPitchRotation state.rearAxlePosition state.pitchAngleDegrees
  let instantCenter := applyPitchRotation state.pivotPosition
  let rearAxleRotated := applyPitchRotation state.rearAxlePosition
  let frontAxleRotated := applyPitchRotation state.frontAxlePosition
  match lineIntersectionWithVertical rearAxleRotated instantCenter frontAxleRotated.x with
  | Option.none => 0
  | Option.some antiriseIntersection =>
    let centreOfMassHeight := (getRotatedCentreOfMass state g applyPitchRotation).y
    antiriseIntersection.y / centreOfMassHeight * 100

/-- Embeds `computeTrail` from `kinematics.ts`: perpendicular distance from the
front contact patch to the pitch-rotated head-tube line. -/
def computeTrail ( state : KinematicState) (g : BikeGeometry) : ℝ :=
  let contactPatch : Point2D := ⟨ state.frontAxlePosition.x, 0⟩
  let applyPitchRotation :=
    getApplyPitchRotation state.rearAxlePosition state.pitchAngleDegrees
  let htTopRotated := applyPitchRotation (headTubeTop g)
  let htBottomRotated := applyPitchRotation (headTubeBottom g)
  let htVector := Point2D.subtract htBottomRotated htTopRotated
  let num := |htVector.y * (contactPatch.x - htTopRotated.x)
    - htVector.x * (contactPatch.y - htTopRotated.y)|
  let den := Real.sqrt (htVector.x * htVector.x + htVector.y * htVector.y)
  num / den

/-- The sample count of `runKinematicAnalysis`:
`Math.floor(shockStroke / 0.5) + 1` iterations of the sampling loop
(clamped at zero, as a `for` loop with a non-positive bound runs no
iterations). -/
def strokeSteps (g : BikeGeometry) : ℕ := (⌊g.shockStroke / 0.5⌋ + 1).toNat

/-- The first-pass state at sample index `i` (shock stroke `i * 0.5`),
with the rigid triangle established once from the geometry, exactly as
the first loop of `runKinematicAnalysis` fills `firstPassStates[i]`. -/
def firstPassAt (g : BikeGeometry) (i : ℕ) : KinematicStateFirstPass :=
  calculateStateAtShockStroke ((i : ℝ) * 0.5) g (establishRigidTriangle g)

/-- The proportional fork compression at sample index `i`
(`travelRatio * forkTravel` in the first loop). -/
def proportionalForkStrokeAt (g : BikeGeometry) (i : ℕ) : ℝ :=
  (i : ℝ) * 0.5 / g.shockStroke * g.forkTravel

/-- The leverage-ratio branch of the second loop of
`runKinematicAnalysis` at index `i` of `n` samples: forward difference
at the first sample, backward at the last, central otherwise (each
guarded by the JavaScript `shockStrokeDelta > 0` ternary with the fixed
step 0.5). -/
def leverageRatioAt (g : BikeGeometry) (n i : ℕ) : ℝ :=
  if i = 0 then
    if 1 < n then
      if (0 : ℝ) < 0.5 then
        ((firstPassAt g 1).travelMM - (firstPassAt g 0).travelMM) / 0.5
      else 1
    else 1
  else if i = n - 1 then
    if (0 : ℝ) < 0.5 then
      ((firstPassAt g i).travelMM - (firstPassAt g (i - 1)).travelMM) / 0.5
    else 1
  else
    if (0 : ℝ) < 2 * 0.5 then
      ((firstPassAt g (i + 1)).travelMM - (firstPassAt g (i - 1)).travelMM) / (2 * 0.5)
    else 1

/-- The full second-pass state built by the second loop of
`runKinematicAnalysis` at index `i` of `n` samples: refined front axle
with proportional fork compression, recomputed pitch, leverage ratio,
wheel rate, anti-squat, anti-rise and trail.  The JavaScript code
creates the record with zero placeholders and assigns the derived
fields in order; since none of the assigned values reads a field
assigned later, the net record is built here in one step (with the
anti-squat/anti-rise/trail inputs taken from the record before those
three fields are filled, exactly as in the source). -/
def secondPassState (g : BikeGeometry) (n i : ℕ) : KinematicState :=
  let fp := firstPassAt g i
  let htaRad := headTubeAngleRadians g
  let effectiveForkLength := g.forkLength - proportionalForkStrokeAt g i
  let frontAxlePos : Point2D :=
    ⟨fp.bbPosition.x + g.reach + g.headTubeLength * Real.cos htaRad
       + effectiveForkLength * Real.cos htaRad + g.forkOffset * Real.sin htaRad,
     fp.bbPosition.y + g.stack - g.headTubeLength * Real.sin htaRad
       - effectiveForkLength * Real.sin htaRad + g.forkOffset * Real.cos htaRad⟩
  let dx := frontAxlePos.x - fp.rearAxlePosition.x
  let dy := frontAxlePos.y - fp.rearAxlePosition.y
  let centerDist := Real.sqrt (dx * dx + dy * dy)
  let centerAngle := atan2 dy dx
  let radiusDiff := frontWheelRadius g - rearWheelRadius g
  let angleOffset := Real.arcsin (radiusDiff / centerDist)
  let tangentAngle := centerAngle - angleOffset
  let pitchDeg := tangentAngle * 180 / Real.pi
  let lr := leverageRatioAt g n i
  let st0 : KinematicState :=
    { travelMM := fp.travelMM
      rearAxlePosition := fp.rearAxlePosition
      bbPosition := fp.bbPosition
      pivotPosition := fp.pivotPosition
      swingarmEyePosition := fp.swingarmEyePosition
      shockLength := fp.shockLength
      pitchAngleDegrees := pitchDeg
      frontAxlePosition := frontAxlePos
      forkCompression := proportionalForkStrokeAt g i
      leverageRatio := lr
      wheelRate := g.shockSpringRate / (lr * lr)
      antiSquat := 0
      antiRise := 0
      pedalKickback := 0
      chainGrowth := 0
      totalChainGrowth := 0
      trail := 0
      crankAngle := 0 }
  { st0 with
      antiSquat := calculateVisualAntiSquat st0 g
      antiRise := calculateVisualAntiRise st0 g
      trail := computeTrail st0 g }

/-- Embeds `runKinematicAnalysis` from `kinematics.ts`: samples the stroke at
0.5mm steps, extends the first-pass states with the second pass, and
returns the states together with both axle paths relative to the bottom
bracket. -/
def runKinematicAnalysis (g : BikeGeometry) : AnalysisResults :=
  let n := strokeSteps g
  { states := (List.range n).map (secondPassState g n)
    axlePath := (List.range n).map (fun i =>
      let st := secondPassState g n i
      ⟨ st.rearAxlePosition.x - st.bbPosition.x, st.rearAxlePosition.y - st.bbPosition.y⟩)
    frontAxlePath := (List.range n).map (fun i =>
      let st := secondPassState g n i
      ⟨ st.frontAxlePosition.x - st.bbPosition.x,
        st.frontAxlePosition.y - st.bbPosition.y⟩) }

/-! ## Concrete geometries used to settle the claims

These variants of the default geometry place the pivot at
`(0, 540)` and the shock frame mount at `(30, 580)`, so the
centre-to-centre distance of the two shock-eye circles is exactly
`50` (a 3-4-5 triangle scaled by 10), which keeps the circle
intersection algebra exact. -/

/-- A geometry whose top-out solve succeeds (centre distance 50 lies
between `|190 - 210| = 20` and `190 + 210 = 400`, and the swingarm is
long enough), but whose stroke range extends to 80mm: at stroke 75 the
current shock length is `210 - 75 = 135` and `50 < |190 - 135| = 55`,
so the per-stroke circle intersection is empty and the sampler emits
its degenerate state mid-sequence. -/
def gInvalidStroke : BikeGeometry :=
  { createDefaultGeometry with
      bbToPivotX := 0
      shockFrameMountY := 250
      shockStroke := 80 }

/-- The same mount geometry with a 10mm swingarm: the vertical offset
from the pivot (y = 540) down to the rear-axle height (y = 375) is
165mm, far more than the swingarm length, so
`horizontalDistSquared = 10² - 165² < 0` and `establishRigidTriangle`
takes its fallback branch.  The fallback triangle has
`pivotToEye = 190` and `pivotToAxle = eyeToAxle = 10`, so the
per-stroke law-of-cosines value is `190 / (2 * 10) = 9.5`, outside the
domain of `Math.acos`. -/
def gShortSwingarm : BikeGeometry :=
  { createDefaultGeometry with
      bbToPivotX := 0
      shockFrameMountY := 250
      swingarmLength := 10 }

/-- A geometry whose shock frame mount sits 1000mm from the pivot:
`1000 > 190 + 210`, so the shock-eye circle intersection is empty at
every stroke and `calculateStateAtShockStroke` always takes its
degenerate branch. -/
def gFarMount : BikeGeometry :=
  { createDefaultGeometry with
      bbToPivotX := 0
      shockFrameMountX := 1000
      shockFrameMountY := 210 }

/-! ## Basic lemmas about the analysis pipeline -/

lemma states_length (g : BikeGeometry) :
    (runKinematicAnalysis g).states.length = strokeSteps g := by
  simp [runKinematicAnalysis]

lemma axlePath_length (g : BikeGeometry) :
    (runKinematicAnalysis g).axlePath.length = strokeSteps g := by
  simp [runKinematicAnalysis]

lemma frontAxlePath_length (g : BikeGeometry) :
    (runKinematicAnalysis g).frontAxlePath.length = strokeSteps g := by
  simp [runKinematicAnalysis]

lemma states_get?_eq (g : BikeGeometry) (i : ℕ) (h : i < strokeSteps g) :
    (runKinematicAnalysis g).states[i]? = some (secondPassState g (strokeSteps g) i) := by
  simp only [runKinematicAnalysis]
  rw [List.getElem?_map, List.getElem?_range h]
  rfl

lemma states_get?_some {g : BikeGeometry} {i : ℕ} {s : KinematicState}
    (hs : (runKinematicAnalysis g).states[i]? = some s) :
    i < strokeSteps g ∧ s = secondPassState g (strokeSteps g) i := by
  rcases Nat.lt_or_ge i (strokeSteps g) with h | h
  · refine ⟨h, ?_⟩
    rw [states_get?_eq g i h] at hs
    exact (Option.some.injEq _ _ ▸ hs).symm
  · exfalso
    rw [List.getElem?_eq_none (by simpa [states_length] using h)] at hs
    cases hs

lemma axlePath_get?_eq (g : BikeGeometry) (i : ℕ) (h : i < strokeSteps g) :
    (runKinematicAnalysis g).axlePath[i]? =
      some ⟨(secondPassState g (strokeSteps g) i).rearAxlePosition.x
              - (secondPassState g (strokeSteps g) i).bbPosition.x,
            (secondPassState g (strokeSteps g) i).rearAxlePosition.y
              - (secondPassState g (strokeSteps g) i).bbPosition.y⟩ := by
  simp only [runKinematicAnalysis]
  rw [List.getElem?_map, List.getElem?_range h]
  rfl

lemma frontAxlePath_get?_eq (g : BikeGeometry) (i : ℕ) (h : i < strokeSteps g) :
    (runKinematicAnalysis g).frontAxlePath[i]? =
      some ⟨(secondPassState g (strokeSteps g) i).frontAxlePosition.x
              - (secondPassState g (strokeSteps g) i).bbPosition.x,
            (secondPassState g (strokeSteps g) i).frontAxlePosition.y
              - (secondPassState g (strokeSteps g) i).bbPosition.y⟩ := by
  simp only [runKinematicAnalysis]
  rw [List.getElem?_map, List.getElem?_range h]
  rfl

lemma secondPass_travelMM (g : BikeGeometry) (n i : ℕ) :
    (secondPassState g n i).travelMM = (firstPassAt g i).travelMM := rfl

lemma secondPass_rearAxle (g : BikeGeometry) (n i : ℕ) :
    (secondPassState g n i).rearAxlePosition = (firstPassAt g i).rearAxlePosition := rfl

lemma secondPass_bb (g : BikeGeometry) (n i : ℕ) :
    (secondPassState g n i).bbPosition = (firstPassAt g i).bbPosition := rfl

lemma secondPass_pivot (g : BikeGeometry) (n i : ℕ) :
    (secondPassState g n i).pivotPosition = (firstPassAt g i).pivotPosition := rfl

lemma secondPass_eye (g : BikeGeometry) (n i : ℕ) :
    (secondPassState g n i).swingarmEyePosition = (firstPassAt g i).swingarmEyePosition := rfl

lemma secondPass_shockLength (g : BikeGeometry) (n i : ℕ) :
    (secondPassState g n i).shockLength = (firstPassAt g i).shockLength := rfl

lemma secondPass_lr (g : BikeGeometry) (n i : ℕ) :
    KinematicState.leverageRatio (secondPassState g n i) = leverageRatioAt g n i := rfl

lemma secondPass_wheelRate (g : BikeGeometry) (n i : ℕ) :
    (secondPassState g n i).wheelRate =
      g.shockSpringRate / (leverageRatioAt g n i * leverageRatioAt g n i) := rfl

/-- The bottom bracket is pinned at `x = 0` in every branch of the
per-stroke solver. -/
lemma calcState_bb_x (s : ℝ) (g : BikeGeometry) (rt : RigidTriangle) :
    (calculateStateAtShockStroke s g rt).bbPosition.x = 0 := by
  simp only [calculateStateAtShockStroke]
  split <;> rfl

/-! ## Geometric helper lemmas -/

lemma sqrt_eq_of_sq (A t : ℝ) (ht : 0 ≤ t) (h : A = t * t) : Real.sqrt A = t := by
  rw [h, Real.sqrt_mul_self ht]

lemma mul_self_distance (p q : Point2D) :
    distance p q * distance p q
      = (q.x - p.x) * (q.x - p.x) + (q.y - p.y) * (q.y - p.y) :=
  Real.mul_self_sqrt (add_nonneg (mul_self_nonneg _) (mul_self_nonneg _))

/-- A nonzero vector in polar form: its components are its norm times
the cosine/sine of its `atan2` angle. -/
lemma polar_coords (v w : ℝ) (h : Real.sqrt (v * v + w * w) ≠ 0) :
    Real.sqrt (v * v + w * w) * Real.cos (atan2 w v) = v
    ∧ Real.sqrt (v * v + w * w) * Real.sin (atan2 w v) = w := by
  have hz : (⟨v, w⟩ : ℂ) ≠ 0 := by
    intro h0
    apply h
    have hv : v = 0 := by simpa using congrArg Complex.re h0
    have hw : w = 0 := by simpa using congrArg Complex.im h0
    rw [hv, hw]
    simp
  have habs : Complex.abs ⟨v, w⟩ = Real.sqrt (v * v + w * w) := by
    rw [Complex.abs_apply, Complex.normSq_mk]
  constructor
  · simp only [atan2]
    rw [Complex.cos_arg hz, habs]
    field_simp
  · simp only [atan2]
    rw [Complex.sin_arg, habs]
    field_simp

/-- Distance from the first centre to a point displaced along the
centre line and its perpendicular: controlled by the coefficient
identity. -/
lemma candidate_dist_gen (c1 c2 : Point2D) (u t r1 : ℝ)
    (h : (u * u + t * t) * ((c2.x - c1.x) * (c2.x - c1.x) + (c2.y - c1.y) * (c2.y - c1.y))
      = r1 * r1) :
    distance c1 ⟨c1.x + u * (c2.x - c1.x) + t * (c2.y - c1.y),
                 c1.y + u * (c2.y - c1.y) + t * (c1.x - c2.x)⟩ = |r1| := by
  simp only [distance]
  apply sqrt_eq_of_sq _ _ (abs_nonneg r1)
  rw [abs_mul_abs_self]
  linear_combination h

/-- Variant of `candidate_dist_gen` for the second (mirrored)
intersection candidate. -/
lemma candidate_dist_gen_minus (c1 c2 : Point2D) (u t r1 : ℝ)
    (h : (u * u + t * t) * ((c2.x - c1.x) * (c2.x - c1.x) + (c2.y - c1.y) * (c2.y - c1.y))
      = r1 * r1) :
    distance c1 ⟨c1.x + u * (c2.x - c1.x) - t * (c2.y - c1.y),
                 c1.y + u * (c2.y - c1.y) - t * (c1.x - c2.x)⟩ = |r1| := by
  simp only [distance]
  apply sqrt_eq_of_sq _ _ (abs_nonneg r1)
  rw [abs_mul_abs_self]
  linear_combination h

/-- Each point returned by `circleCircleIntersection` lies at distance
`|r1|` from the first centre (exact over the reals). -/
lemma circle_inter_distances (c1 : Point2D) (r1 : ℝ) (c2 : Point2D) (r2 : ℝ)
    (hG : ¬(distance c1 c2 > r1 + r2 ∨ distance c1 c2 < |r1 - r2| ∨ distance c1 c2 = 0)) :
    ∀ p ∈ circleCircleIntersection c1 r1 c2 r2, distance c1 p = |r1| := by
  have hG' := hG
  push_neg at hG'
  obtain ⟨h1, h2, h3⟩ := hG'
  have hd0 : 0 < distance c1 c2 := lt_of_le_of_ne (Real.sqrt_nonneg _) (Ne.symm h3)
  have hd' : distance c1 c2 ≠ 0 := ne_of_gt hd0
  have hdd : distance c1 c2 * distance c1 c2
      = (c2.x - c1.x) * (c2.x - c1.x) + (c2.y - c1.y) * (c2.y - c1.y) :=
    mul_self_distance c1 c2
  have f1 : 0 ≤ (r1 + r2) * (r1 + r2) - distance c1 c2 * distance c1 c2 := by
    nlinarith [hd0.le, h1]
  have f2 : 0 ≤ distance c1 c2 * distance c1 c2 - (r1 - r2) * (r1 - r2) := by
    have habs := mul_self_le_mul_self (abs_nonneg (r1 - r2)) h2
    rw [abs_mul_abs_self] at habs
    linarith
  have hkey : 4 * (distance c1 c2 * distance c1 c2)
      * (r1 * r1 - ccA c1 r1 c2 r2 * ccA c1 r1 c2 r2)
      = ((r1 + r2) * (r1 + r2) - distance c1 c2 * distance c1 c2)
        * (distance c1 c2 * distance c1 c2 - (r1 - r2) * (r1 - r2)) := by
    rw [ccA]
    field_simp
    ring
  have hr1a : 0 ≤ r1 * r1 - ccA c1 r1 c2 r2 * ccA c1 r1 c2 r2 := by
    nlinarith [mul_nonneg f1 f2, mul_pos hd0 hd0, hkey]
  have hh : ccH c1 r1 c2 r2 * ccH c1 r1 c2 r2
      = r1 * r1 - ccA c1 r1 c2 r2 * ccA c1 r1 c2 r2 :=
    Real.mul_self_sqrt hr1a
  have e : ccA c1 r1 c2 r2 / distance c1 c2 * (ccA c1 r1 c2 r2 / distance c1 c2)
      + ccH c1 r1 c2 r2 / distance c1 c2 * (ccH c1 r1 c2 r2 / distance c1 c2)
      = (ccA c1 r1 c2 r2 * ccA c1 r1 c2 r2 + ccH c1 r1 c2 r2 * ccH c1 r1 c2 r2)
        / (distance c1 c2 * distance c1 c2) := by
    rw [div_mul_div_comm, div_mul_div_comm, div_add_div_same]
  have hObl : (ccA c1 r1 c2 r2 / distance c1 c2 * (ccA c1 r1 c2 r2 / distance c1 c2)
      + ccH c1 r1 c2 r2 / distance c1 c2 * (ccH c1 r1 c2 r2 / distance c1 c2))
      * ((c2.x - c1.x) * (c2.x - c1.x) + (c2.y - c1.y) * (c2.y - c1.y)) = r1 * r1 := by
    rw [e, hh, ← hdd]
    field_simp
  intro p hp
  simp only [circleCircleIntersection] at hp
  rw [if_neg hG] at hp
  simp only [List.mem_cons, List.mem_singleton, List.not_mem_nil, or_false] at hp
  rcases hp with rfl | rfl
  · simp only [ccP1]
    exact candidate_dist_gen c1 c2 _ _ r1 hObl
  · simp only [ccP2]
    exact candidate_dist_gen_minus c1 c2 _ _ r1 hObl

/-- The law-of-cosines cosine of a genuine triangle lies in `[-1, 1]`
(two-dimensional Cauchy–Schwarz). -/
lemma cos_angle_bounds (P E X : Point2D) (ha : 0 < distance P E) (hb : 0 < distance P X) :
    -1 ≤ (distance P E * distance P E + distance P X * distance P X
            - distance E X * distance E X) / (2 * distance P E * distance P X)
    ∧ (distance P E * distance P E + distance P X * distance P X
            - distance E X * distance E X) / (2 * distance P E * distance P X) ≤ 1 := by
  have ha2 := mul_self_distance P E
  have hb2 := mul_self_distance P X
  have hc2 := mul_self_distance E X
  have hnum : distance P E * distance P E + distance P X * distance P X
      - distance E X * distance E X
      = 2 * ((E.x - P.x) * (X.x - P.x) + (E.y - P.y) * (X.y - P.y)) := by
    rw [ha2, hb2, hc2]
    ring
  have hM : 0 < distance P E * distance P X := mul_pos ha hb
  have hCS : ((E.x - P.x) * (X.x - P.x) + (E.y - P.y) * (X.y - P.y))
        * ((E.x - P.x) * (X.x - P.x) + (E.y - P.y) * (X.y - P.y))
      ≤ (distance P E * distance P X) * (distance P E * distance P X) := by
    have hsq : (distance P E * distance P X) * (distance P E * distance P X)
        = (distance P E * distance P E) * (distance P X * distance P X) := by ring
    rw [hsq, ha2, hb2]
    nlinarith [sq_nonneg ((E.x - P.x) * (X.y - P.y) - (E.y - P.y) * (X.x - P.x))]
  have habs : |(E.x - P.x) * (X.x - P.x) + (E.y - P.y) * (X.y - P.y)|
      ≤ distance P E * distance P X := by
    have h1 : |(E.x - P.x) * (X.x - P.x) + (E.y - P.y) * (X.y - P.y)|
        * |(E.x - P.x) * (X.x - P.x) + (E.y - P.y) * (X.y - P.y)|
        ≤ (distance P E * distance P X) * (distance P E * distance P X) := by
      rwa [abs_mul_abs_self]
    by_contra hcon
    push_neg at hcon
    have h2 := mul_self_lt_mul_self hM.le hcon
    linarith
  have hle : (E.x - P.x) * (X.x - P.x) + (E.y - P.y) * (X.y - P.y)
      ≤ distance P E * distance P X := (abs_le.1 habs).2
  have hge : -(distance P E * distance P X)
      ≤ (E.x - P.x) * (X.x - P.x) + (E.y - P.y) * (X.y - P.y) := (abs_le.1 habs).1
  constructor
  · rw [le_div_iff₀ (by positivity)]
    rw [hnum]
    linarith
  · rw [div_le_one (by positivity)]
    rw [hnum]
    linarith

/-! ## Lemmas about the rigid-triangle solver and the per-stroke solve -/

lemma establish_pivotToAxle (g : BikeGeometry) (h2 : (topOutEyeCandidates g).length = 2)
    (hh : 0 ≤ horizontalDistSquared g) :
    (establishRigidTriangle g).pivotToAxle = distance (topOutPivot g) (topOutAxle g) := by
  rw [establishRigidTriangle, if_neg (by simp [h2]), if_neg (not_lt.2 hh)]

lemma establish_eyeToAxle (g : BikeGeometry) (h2 : (topOutEyeCandidates g).length = 2)
    (hh : 0 ≤ horizontalDistSquared g) :
    (establishRigidTriangle g).eyeToAxle = distance (chosenEyeTopOut g) (topOutAxle g) := by
  rw [establishRigidTriangle, if_neg (by simp [h2]), if_neg (not_lt.2 hh)]

lemma establish_correctEyeIndex (g : BikeGeometry) (h2 : (topOutEyeCandidates g).length = 2)
    (hh : 0 ≤ horizontalDistSquared g) :
    (establishRigidTriangle g).correctEyeIndex = correctEyeIndexTopOut g := by
  rw [establishRigidTriangle, if_neg (by simp [h2]), if_neg (not_lt.2 hh)]

lemma correctEyeIndexTopOut_cases (g : BikeGeometry) :
    correctEyeIndexTopOut g = 0 ∨ correctEyeIndexTopOut g = 1 := by
  rw [correctEyeIndexTopOut]
  split
  · exact Or.inl rfl
  · exact Or.inr rfl

/-- At top-out the solved axle sits exactly one swingarm length from the
pivot (it is placed by the Pythagorean decomposition). -/
lemma topOutAxle_dist (g : BikeGeometry) (hh : 0 ≤ horizontalDistSquared g)
    (hL : 0 ≤ g.swingarmLength) :
    distance (topOutPivot g) (topOutAxle g) = g.swingarmLength := by
  have hsq : Real.sqrt (horizontalDistSquared g) * Real.sqrt (horizontalDistSquared g)
      = horizontalDistSquared g := Real.mul_self_sqrt hh
  have hexp : horizontalDistSquared g
      = g.swingarmLength * g.swingarmLength
        - (rearWheelRadius g - (topOutPivot g).y) * (rearWheelRadius g - (topOutPivot g).y) := by
    rw [horizontalDistSquared, verticalDist]
  rw [topOutAxle]
  rw [if_neg (by
    show ¬((topOutPivot g).x + Real.sqrt (horizontalDistSquared g)
      < (topOutPivot g).x - Real.sqrt (horizontalDistSquared g))
    push_neg
    linarith [Real.sqrt_nonneg (horizontalDistSquared g)])]
  apply sqrt_eq_of_sq _ _ hL
  linear_combination hsq + hexp

/-- The guard of the per-stroke circle intersection is false whenever
the candidate list is non-empty. -/
lemma strokeGuard_of_ne (g : BikeGeometry) (s : ℝ) (hne : strokeEyeCandidates g s ≠ []) :
    ¬(distance (topOutPivot g) (topOutFrameMount g)
        > g.shockSwingarmMountDistance + (g.shockETE - s)
      ∨ distance (topOutPivot g) (topOutFrameMount g)
          < |g.shockSwingarmMountDistance - (g.shockETE - s)|
      ∨ distance (topOutPivot g) (topOutFrameMount g) = 0) := by
  intro hG
  apply hne
  simp only [strokeEyeCandidates, circleCircleIntersection]
  rw [if_pos hG]

lemma strokeEyeCandidates_eq (g : BikeGeometry) (s : ℝ)
    (hG : ¬(distance (topOutPivot g) (topOutFrameMount g)
        > g.shockSwingarmMountDistance + (g.shockETE - s)
      ∨ distance (topOutPivot g) (topOutFrameMount g)
          < |g.shockSwingarmMountDistance - (g.shockETE - s)|
      ∨ distance (topOutPivot g) (topOutFrameMount g) = 0)) :
    strokeEyeCandidates g s =
      [ccP1 (topOutPivot g) g.shockSwingarmMountDistance (topOutFrameMount g) (g.shockETE - s),
       ccP2 (topOutPivot g) g.shockSwingarmMountDistance (topOutFrameMount g) (g.shockETE - s)] := by
  simp only [strokeEyeCandidates, circleCircleIntersection]
  rw [if_neg hG]

lemma strokeChosenEye_mem (g : BikeGeometry) (rt : RigidTriangle) (s : ℝ)
    (hne : strokeEyeCandidates g s ≠ [])
    (hidx : rt.correctEyeIndex = 0 ∨ rt.correctEyeIndex = 1) :
    strokeChosenEye g rt s ∈ strokeEyeCandidates g s := by
  have hG := strokeGuard_of_ne g s hne
  rw [strokeChosenEye, strokeEyeCandidates_eq g s hG]
  rcases hidx with h | h <;> rw [h] <;> simp

/-- The chosen eye lies exactly on the swingarm-mount circle around the
pivot. -/
lemma strokeEyeDist (g : BikeGeometry) (rt : RigidTriangle) (s : ℝ)
    (hne : strokeEyeCandidates g s ≠ [])
    (hidx : rt.correctEyeIndex = 0 ∨ rt.correctEyeIndex = 1)
    (hr : 0 ≤ g.shockSwingarmMountDistance) :
    distance (topOutPivot g) (strokeChosenEye g rt s) = g.shockSwingarmMountDistance := by
  have hG := strokeGuard_of_ne g s hne
  have hmem := strokeChosenEye_mem g rt s hne hidx
  have hd := circle_inter_distances (topOutPivot g) g.shockSwingarmMountDistance
    (topOutFrameMount g) (g.shockETE - s) hG _ hmem
  rwa [abs_of_nonneg hr] at hd

lemma length_ne_zero_of_ne_nil {l : List Point2D} (h : l ≠ []) : ¬(l.length = 0) :=
  fun h0 => h (List.length_eq_zero.1 h0)

lemma calcState_pivotPos (s : ℝ) (g : BikeGeometry) (rt : RigidTriangle)
    (hne : strokeEyeCandidates g s ≠ []) :
    (calculateStateAtShockStroke s g rt).pivotPosition
      = ⟨g.bbToPivotX, (topOutPivot g).y - strokeGroundOffset g rt s⟩ := by
  simp only [calculateStateAtShockStroke]
  rw [if_neg (length_ne_zero_of_ne_nil hne)]

lemma calcState_eyePos (s : ℝ) (g : BikeGeometry) (rt : RigidTriangle)
    (hne : strokeEyeCandidates g s ≠ []) :
    (calculateStateAtShockStroke s g rt).swingarmEyePosition
      = ⟨(strokeChosenEye g rt s).x, (strokeChosenEye g rt s).y - strokeGroundOffset g rt s⟩ := by
  simp only [calculateStateAtShockStroke]
  rw [if_neg (length_ne_zero_of_ne_nil hne)]

lemma calcState_rearPos (s : ℝ) (g : BikeGeometry) (rt : RigidTriangle)
    (hne : strokeEyeCandidates g s ≠ []) :
    (calculateStateAtShockStroke s g rt).rearAxlePosition
      = ⟨(strokeNominalAxle g rt s).x, rearWheelRadius g⟩ := by
  simp only [calculateStateAtShockStroke]
  rw [if_neg (length_ne_zero_of_ne_nil hne)]

/-- Core invariant of the per-stroke solve: whenever the circle
intersection succeeds and the law-of-cosines value is in the domain of
`acos`, the solved state reproduces the rigid triangle's side lengths
exactly. -/
lemma state_distances (g : BikeGeometry) (rt : RigidTriangle) (s : ℝ)
    (hne : strokeEyeCandidates g s ≠ [])
    (hr : 0 < g.shockSwingarmMountDistance)
    (hb : 0 < rt.pivotToAxle)
    (he : 0 ≤ rt.eyeToAxle)
    (hidx : rt.correctEyeIndex = 0 ∨ rt.correctEyeIndex = 1)
    (hdom : -1 ≤ strokeCosAngle g rt s ∧ strokeCosAngle g rt s ≤ 1) :
    distance (calculateStateAtShockStroke s g rt).pivotPosition
        (calculateStateAtShockStroke s g rt).swingarmEyePosition
      = g.shockSwingarmMountDistance
    ∧ distance (calculateStateAtShockStroke s g rt).pivotPosition
        (calculateStateAtShockStroke s g rt).rearAxlePosition = rt.pivotToAxle
    ∧ distance (calculateStateAtShockStroke s g rt).swingarmEyePosition
        (calculateStateAtShockStroke s g rt).rearAxlePosition = rt.eyeToAxle := by
  have hEye := strokeEyeDist g rt s hne hidx hr.le
  have hPx : (topOutPivot g).x = g.bbToPivotX := rfl
  have hNAx : (strokeNominalAxle g rt s).x
      = (topOutPivot g).x + rt.pivotToAxle * Real.cos (strokeAxleAngle g rt s) := rfl
  have hgo : strokeGroundOffset g rt s
      = (topOutPivot g).y + rt.pivotToAxle * Real.sin (strokeAxleAngle g rt s)
        - rearWheelRadius g := rfl
  rw [calcState_pivotPos s g rt hne, calcState_eyePos s g rt hne, calcState_rearPos s g rt hne]
  -- polar form of the chosen eye relative to the pivot
  have hdE : distance (topOutPivot g) (strokeChosenEye g rt s) ≠ 0 := by
    rw [hEye]
    exact ne_of_gt hr
  have hpol := polar_coords ((strokeChosenEye g rt s).x - (topOutPivot g).x)
    ((strokeChosenEye g rt s).y - (topOutPivot g).y) hdE
  have hcos' : distance (topOutPivot g) (strokeChosenEye g rt s)
      * Real.cos (angle (topOutPivot g) (strokeChosenEye g rt s))
      = (strokeChosenEye g rt s).x - (topOutPivot g).x := hpol.1
  have hsin' : distance (topOutPivot g) (strokeChosenEye g rt s)
      * Real.sin (angle (topOutPivot g) (strokeChosenEye g rt s))
      = (strokeChosenEye g rt s).y - (topOutPivot g).y := hpol.2
  rw [hEye] at hcos' hsin'
  have hEx : (strokeChosenEye g rt s).x
      = (topOutPivot g).x + g.shockSwingarmMountDistance
        * Real.cos (angle (topOutPivot g) (strokeChosenEye g rt s)) := by linarith
  have hEy : (strokeChosenEye g rt s).y
      = (topOutPivot g).y + g.shockSwingarmMountDistance
        * Real.sin (angle (topOutPivot g) (strokeChosenEye g rt s)) := by linarith
  -- the cosine of the angle between the eye direction and axle direction
  have hθ : Real.cos (Real.arccos (strokeCosAngle g rt s)) = strokeCosAngle g rt s :=
    Real.cos_arccos hdom.1 hdom.2
  have hphi : Real.cos (strokeAxleAngle g rt s)
        * Real.cos (angle (topOutPivot g) (strokeChosenEye g rt s))
      + Real.sin (strokeAxleAngle g rt s)
        * Real.sin (angle (topOutPivot g) (strokeChosenEye g rt s))
      = strokeCosAngle g rt s := by
    rw [← Real.cos_sub]
    rw [strokeAxleAngle]
    by_cases hpos : rt.axleAngleIsPositive
    · rw [if_pos hpos, add_sub_cancel_left]
      exact hθ
    · rw [if_neg hpos, sub_sub_cancel_left, Real.cos_neg]
      exact hθ
  -- the law-of-cosines identity for the fixed side lengths
  have hlaw : 2 * g.shockSwingarmMountDistance * rt.pivotToAxle * strokeCosAngle g rt s
      = g.shockSwingarmMountDistance * g.shockSwingarmMountDistance
        + rt.pivotToAxle * rt.pivotToAxle - rt.eyeToAxle * rt.eyeToAxle := by
    rw [strokeCosAngle]
    rw [hEye]
    field_simp
  have htφ := Real.sin_sq_add_cos_sq (strokeAxleAngle g rt s)
  have htβ := Real.sin_sq_add_cos_sq (angle (topOutPivot g) (strokeChosenEye g rt s))
  refine ⟨?_, ?_, ?_⟩
  · -- pivot to eye
    have h1 := mul_self_distance (topOutPivot g) (strokeChosenEye g rt s)
    rw [hEye, hPx] at h1
    apply sqrt_eq_of_sq _ _ hr.le
    linear_combination -h1
  · -- pivot to axle
    apply sqrt_eq_of_sq _ _ hb.le
    rw [hgo, hNAx, hPx]
    linear_combination (rt.pivotToAxle ^ 2) * htφ
  · -- eye to axle
    apply sqrt_eq_of_sq _ _ he
    rw [hgo, hNAx, hEx, hEy]
    linear_combination (rt.pivotToAxle ^ 2) * htφ
      + (g.shockSwingarmMountDistance ^ 2) * htβ
      - 2 * rt.pivotToAxle * g.shockSwingarmMountDistance * hphi - hlaw

/-- Discharge form for a false intersection guard. -/
lemma guard_false_of_bounds (d r1 r2 : ℝ) (h0 : 0 < d) (h1 : d ≤ r1 + r2)
    (h2 : r1 - r2 ≤ d) (h3 : r2 - r1 ≤ d) :
    ¬(d > r1 + r2 ∨ d < |r1 - r2| ∨ d = 0) := by
  push_neg
  exact ⟨h1, abs_le.mpr ⟨by linarith, h2⟩, ne_of_gt h0⟩

/-- Under a valid (non-fallback) top-out solve, every successfully
intersected stroke state reproduces the shock-mount radius, the
swingarm length, and the top-out eye-axle distance exactly. -/
lemma triangle_dists_of_valid (g : BikeGeometry)
    (h2 : (topOutEyeCandidates g).length = 2)
    (hh : 0 ≤ horizontalDistSquared g)
    (hr : 0 < g.shockSwingarmMountDistance)
    (hL : 0 < g.swingarmLength)
    (s : ℝ) (hne : strokeEyeCandidates g s ≠ []) :
    distance (calculateStateAtShockStroke s g (establishRigidTriangle g)).pivotPosition
        (calculateStateAtShockStroke s g (establishRigidTriangle g)).swingarmEyePosition
      = g.shockSwingarmMountDistance
    ∧ distance (calculateStateAtShockStroke s g (establishRigidTriangle g)).pivotPosition
        (calculateStateAtShockStroke s g (establishRigidTriangle g)).rearAxlePosition
      = g.swingarmLength
    ∧ distance (calculateStateAtShockStroke s g (establishRigidTriangle g)).swingarmEyePosition
        (calculateStateAtShockStroke s g (establishRigidTriangle g)).rearAxlePosition
      = (establishRigidTriangle g).eyeToAxle := by
  have hidx0 := correctEyeIndexTopOut_cases g
  have hidx : (establishRigidTriangle g).correctEyeIndex = 0
      ∨ (establishRigidTriangle g).correctEyeIndex = 1 := by
    rw [establish_correctEyeIndex g h2 hh]
    exact hidx0
  have hbA : (establishRigidTriangle g).pivotToAxle = g.swingarmLength := by
    rw [establish_pivotToAxle g h2 hh, topOutAxle_dist g hh hL.le]
  have hb : 0 < (establishRigidTriangle g).pivotToAxle := by
    rw [hbA]
    exact hL
  have he : 0 ≤ (establishRigidTriangle g).eyeToAxle := by
    rw [establish_eyeToAxle g h2 hh]
    exact Real.sqrt_nonneg _
  -- the top-out chosen eye sits on the mount circle
  have hG0 : ¬(distance (topOutPivot g) (topOutFrameMount g)
      > g.shockSwingarmMountDistance + g.shockETE
    ∨ distance (topOutPivot g) (topOutFrameMount g)
        < |g.shockSwingarmMountDistance - g.shockETE|
    ∨ distance (topOutPivot g) (topOutFrameMount g) = 0) := by
    intro hG
    have hempty : topOutEyeCandidates g = [] := by
      simp only [topOutEyeCandidates, circleCircleIntersection]
      rw [if_pos hG]
    rw [hempty] at h2
    simp at h2
  have hlist : topOutEyeCandidates g =
      [ccP1 (topOutPivot g) g.shockSwingarmMountDistance (topOutFrameMount g) g.shockETE,
       ccP2 (topOutPivot g) g.shockSwingarmMountDistance (topOutFrameMount g) g.shockETE] := by
    simp only [topOutEyeCandidates, circleCircleIntersection]
    rw [if_neg hG0]
  have hmem0 : chosenEyeTopOut g ∈ topOutEyeCandidates g := by
    rw [chosenEyeTopOut]
    rcases hidx0 with h | h <;> rw [h, hlist] <;> simp
  have hE0 : distance (topOutPivot g) (chosenEyeTopOut g) = g.shockSwingarmMountDistance := by
    have hd := circle_inter_distances (topOutPivot g) g.shockSwingarmMountDistance
      (topOutFrameMount g) g.shockETE hG0 _ hmem0
    rwa [abs_of_nonneg hr.le] at hd
  have hE0pos : 0 < distance (topOutPivot g) (chosenEyeTopOut g) := by
    rw [hE0]
    exact hr
  have hXpos : 0 < distance (topOutPivot g) (topOutAxle g) := by
    rw [topOutAxle_dist g hh hL.le]
    exact hL
  have hbounds := cos_angle_bounds (topOutPivot g) (chosenEyeTopOut g) (topOutAxle g)
    hE0pos hXpos
  rw [hE0, ← establish_pivotToAxle g h2 hh, ← establish_eyeToAxle g h2 hh] at hbounds
  have hsc : strokeCosAngle g (establishRigidTriangle g) s
      = (g.shockSwingarmMountDistance * g.shockSwingarmMountDistance
          + (establishRigidTriangle g).pivotToAxle * (establishRigidTriangle g).pivotToAxle
          - (establishRigidTriangle g).eyeToAxle * (establishRigidTriangle g).eyeToAxle)
        / (2 * g.shockSwingarmMountDistance * (establishRigidTriangle g).pivotToAxle) := by
    rw [strokeCosAngle]
    rw [strokeEyeDist g (establishRigidTriangle g) s hne hidx hr.le]
  have hdom : -1 ≤ strokeCosAngle g (establishRigidTriangle g) s
      ∧ strokeCosAngle g (establishRigidTriangle g) s ≤ 1 := by
    rw [hsc]
    exact hbounds
  have hd := state_distances g (establishRigidTriangle g) s hne hr hb he hidx hdom
  exact ⟨hd.1, by rw [hd.2.1, hbA], hd.2.2⟩

/-- Evaluation of the sample count for the default geometry. -/
lemma default_strokeSteps : strokeSteps createDefaultGeometry = 131 := by
  have h : createDefaultGeometry.shockStroke = 65 := rfl
  rw [strokeSteps, h]
  norm_num
  rfl

/-- C4: for every geometry and every state returned by
`runKinematicAnalysis`, the `wheelRate` field equals `shockSpringRate`
divided by the square of that state's `leverageRatio` field. -/
theorem c4_wheel_rate_identity (g : BikeGeometry) (s : KinematicState)
    (hs : s ∈ (runKinematicAnalysis g).states) :
    s.wheelRate = g.shockSpringRate / ( s.leverageRatio * s.leverageRatio) := by
  have hrw : (runKinematicAnalysis g).states
      = (List.range (strokeSteps g)).map (secondPassState g (strokeSteps g)) := rfl
  rw [hrw, List.mem_map] at hs
  obtain ⟨j, -, rfl⟩ := hs
  rfl

/-- Witness for C4 at the default geometry's first state. -/
theorem c4_wheel_rate_identity_witness :
    secondPassState createDefaultGeometry (strokeSteps createDefaultGeometry) 0
      ∈ (runKinematicAnalysis createDefaultGeometry).states
    ∧ (secondPassState createDefaultGeometry (strokeSteps createDefaultGeometry) 0).wheelRate
      = createDefaultGeometry.shockSpringRate /
        ( KinematicState.leverageRatio
            (secondPassState createDefaultGeometry (strokeSteps createDefaultGeometry) 0)
          * KinematicState.leverageRatio
            (secondPassState createDefaultGeometry (strokeSteps createDefaultGeometry) 0)) := by
  have hmem : secondPassState createDefaultGeometry (strokeSteps createDefaultGeometry) 0
      ∈ (runKinematicAnalysis createDefaultGeometry).states := by
    have hrw : (runKinematicAnalysis createDefaultGeometry).states
        = (List.range (strokeSteps createDefaultGeometry)).map
            (secondPassState createDefaultGeometry (strokeSteps createDefaultGeometry)) := rfl
    rw [hrw]
    exact List.mem_map_of_mem _ (List.mem_range.2 (by rw [default_strokeSteps]; norm_num))
  exact ⟨hmem, c4_wheel_rate_identity createDefaultGeometry _ hmem⟩

/-- C10: every state has its bottom bracket at `x = 0`, and each
axle-path and front-axle-path entry has the x coordinate of the
corresponding axle position. -/
theorem c10_bb_fixed_frame (g : BikeGeometry) (i : ℕ) (s : KinematicState)
    (hs : (runKinematicAnalysis g).states[i]? = some s) :
    s.bbPosition.x = 0
    ∧ Option.map Point2D.x ((runKinematicAnalysis g).axlePath[i]?)
        = some s.rearAxlePosition.x
    ∧ Option.map Point2D.x ((runKinematicAnalysis g).frontAxlePath[i]?)
        = some s.frontAxlePosition.x := by
  obtain ⟨hi, rfl⟩ := states_get?_some hs
  have hbb : (secondPassState g (strokeSteps g) i).bbPosition.x = 0 := by
    rw [secondPass_bb]
    exact calcState_bb_x _ _ _
  refine ⟨hbb, ?_, ?_⟩
  · rw [axlePath_get?_eq g i hi]
    simp [hbb]
  · rw [frontAxlePath_get?_eq g i hi]
    simp [hbb]

/-- Witness for C10 at the default geometry's first state. -/
theorem c10_bb_fixed_frame_witness :
    (runKinematicAnalysis createDefaultGeometry).states[0]?
      = some (secondPassState createDefaultGeometry (strokeSteps createDefaultGeometry) 0)
    ∧ (secondPassState createDefaultGeometry (strokeSteps createDefaultGeometry) 0).bbPosition.x
        = 0 := by
  have hget : (runKinematicAnalysis createDefaultGeometry).states[0]?
      = some (secondPassState createDefaultGeometry (strokeSteps createDefaultGeometry) 0) :=
    states_get?_eq createDefaultGeometry 0 (by rw [default_strokeSteps]; norm_num)
  exact ⟨hget, (c10_bb_fixed_frame createDefaultGeometry 0 _ hget).1⟩

/-- C3: with a positive shock stroke the analysis returns exactly
`floor(shockStroke / 0.5) + 1` states, the `i`-th built from the
per-stroke solve at `i * 0.5` mm (so the first is the zero-stroke
top-out point); in particular the default geometry yields 131 states. -/
theorem c3_sampling_contract (g : BikeGeometry) (h : 0 < g.shockStroke) :
    ((runKinematicAnalysis g).states.length = (⌊g.shockStroke / 0.5⌋).toNat + 1
      ∧ ∀ (i : ℕ) (s : KinematicState), (runKinematicAnalysis g).states[i]? = some s →
          s.travelMM
              = (calculateStateAtShockStroke ((i : ℝ) * 0.5) g (establishRigidTriangle g)).travelMM
          ∧ s.rearAxlePosition
              = (calculateStateAtShockStroke ((i : ℝ) * 0.5) g
                  (establishRigidTriangle g)).rearAxlePosition
          ∧ s.bbPosition
              = (calculateStateAtShockStroke ((i : ℝ) * 0.5) g
                  (establishRigidTriangle g)).bbPosition
          ∧ s.pivotPosition
              = (calculateStateAtShockStroke ((i : ℝ) * 0.5) g
                  (establishRigidTriangle g)).pivotPosition
          ∧ s.swingarmEyePosition
              = (calculateStateAtShockStroke ((i : ℝ) * 0.5) g
                  (establishRigidTriangle g)).swingarmEyePosition
          ∧ s.shockLength
              = (calculateStateAtShockStroke ((i : ℝ) * 0.5) g
                  (establishRigidTriangle g)).shockLength)
    ∧ (runKinematicAnalysis createDefaultGeometry).states.length = 131 := by
  refine ⟨⟨?_, ?_⟩, ?_⟩
  · have h0 : 0 ≤ ⌊g.shockStroke / 0.5⌋ := Int.floor_nonneg.2 (by positivity)
    rw [states_length, strokeSteps]
    omega
  · intro i s hs
    obtain ⟨hi, rfl⟩ := states_get?_some hs
    exact ⟨rfl, rfl, rfl, rfl, rfl, rfl⟩
  · rw [states_length, default_strokeSteps]

/-- Witness for C3: the default geometry's sample count. -/
theorem c3_sampling_contract_witness :
    (runKinematicAnalysis createDefaultGeometry).states.length
      = (⌊createDefaultGeometry.shockStroke / 0.5⌋).toNat + 1 :=
  (c3_sampling_contract createDefaultGeometry
    (by have h : createDefaultGeometry.shockStroke = 65 := rfl
        rw [h]; norm_num)).1.1

/-- C5: with at least two samples, each state's leverage ratio is the
numerical derivative of wheel travel over the 0.5mm step: forward
difference at the first sample, backward at the last, central (over
1.0mm) in the interior; and each state's `travelMM` is the first-pass
travel at its index. -/
theorem c5_leverage_ratio_differences (g : BikeGeometry)
    (hn : 2 ≤ (runKinematicAnalysis g).states.length) (i : ℕ) (s : KinematicState)
    (hs : (runKinematicAnalysis g).states[i]? = some s) :
    s.leverageRatio =
      (if i = 0 then ((firstPassAt g 1).travelMM - (firstPassAt g 0).travelMM) / 0.5
       else if i = (runKinematicAnalysis g).states.length - 1 then
         ((firstPassAt g i).travelMM - (firstPassAt g (i - 1)).travelMM) / 0.5
       else ((firstPassAt g (i + 1)).travelMM - (firstPassAt g (i - 1)).travelMM) / 1)
    ∧ s.travelMM = (firstPassAt g i).travelMM := by
  obtain ⟨hi, rfl⟩ := states_get?_some hs
  rw [states_length] at hn ⊢
  refine ⟨?_, rfl⟩
  rw [secondPass_lr, leverageRatioAt]
  by_cases h0 : i = 0
  · subst h0
    simp [show 1 < strokeSteps g from hn, show (0 : ℝ) < 0.5 by norm_num]
  · rw [if_neg h0, if_neg h0]
    by_cases hlast : i = strokeSteps g - 1
    · rw [if_pos hlast, if_pos hlast, if_pos (show (0 : ℝ) < 0.5 by norm_num)]
    · rw [if_neg hlast, if_neg hlast, if_pos (show (0 : ℝ) < 2 * 0.5 by norm_num)]
      norm_num

/-- Witness for C5 at the default geometry's first sample. -/
theorem c5_leverage_ratio_differences_witness :
    2 ≤ (runKinematicAnalysis createDefaultGeometry).states.length
    ∧ KinematicState.leverageRatio
        (secondPassState createDefaultGeometry (strokeSteps createDefaultGeometry) 0)
      = ((firstPassAt createDefaultGeometry 1).travelMM
          - (firstPassAt createDefaultGeometry 0).travelMM) / 0.5 := by
  have hn : 2 ≤ (runKinematicAnalysis createDefaultGeometry).states.length := by
    rw [states_length, default_strokeSteps]; norm_num
  have hget : (runKinematicAnalysis createDefaultGeometry).states[0]?
      = some (secondPassState createDefaultGeometry (strokeSteps createDefaultGeometry) 0) :=
    states_get?_eq createDefaultGeometry 0 (by rw [default_strokeSteps]; norm_num)
  have h := (c5_leverage_ratio_differences createDefaultGeometry hn 0 _ hget).1
  exact ⟨hn, by simpa using h⟩

/-- C7: when the top-out circle intersection is empty or the swingarm is
too short (negative Pythagorean term), `establishRigidTriangle` returns
the fallback triangle built from nominal geometry values, and the
analysis still returns the full-length sample sequence. -/
theorem c7_fallback_triangle (g : BikeGeometry)
    (hdeg : topOutEyeCandidates g = [] ∨ horizontalDistSquared g < 0)
    (hs : 0 ≤ g.shockStroke) :
    establishRigidTriangle g = fallbackTriangle g
    ∧ (establishRigidTriangle g).pivotToEye = g.shockSwingarmMountDistance
    ∧ (establishRigidTriangle g).pivotToAxle = g.swingarmLength
    ∧ (establishRigidTriangle g).eyeToAxle = g.swingarmLength
    ∧ (runKinematicAnalysis g).states.length = (⌊g.shockStroke / 0.5⌋).toNat + 1 := by
  have hfb : establishRigidTriangle g = fallbackTriangle g := by
    rcases hdeg with hempty | hneg
    · rw [establishRigidTriangle, if_pos (by rw [hempty]; simp)]
    · by_cases hlen : (topOutEyeCandidates g).length ≠ 2
      · rw [establishRigidTriangle, if_pos hlen]
      · rw [establishRigidTriangle, if_neg hlen, if_pos hneg]
  have hlen' : (runKinematicAnalysis g).states.length = (⌊g.shockStroke / 0.5⌋).toNat + 1 := by
    have h0 : 0 ≤ ⌊g.shockStroke / 0.5⌋ := Int.floor_nonneg.2 (by positivity)
    rw [states_length, strokeSteps]
    omega
  exact ⟨hfb, by rw [hfb]; rfl, by rw [hfb]; rfl, by rw [hfb]; rfl, hlen'⟩

/-- Witness for C7 at the short-swingarm geometry. -/
theorem c7_fallback_triangle_witness :
    establishRigidTriangle gShortSwingarm = fallbackTriangle gShortSwingarm
    ∧ (runKinematicAnalysis gShortSwingarm).states.length
        = (⌊gShortSwingarm.shockStroke / 0.5⌋).toNat + 1 := by
  have hdeg : topOutEyeCandidates gShortSwingarm = []
      ∨ horizontalDistSquared gShortSwingarm < 0 := by
    right
    norm_num [horizontalDistSquared, verticalDist, rearWheelRadius, topOutPivot,
      gShortSwingarm, createDefaultGeometry]
  have hs : (0 : ℝ) ≤ gShortSwingarm.shockStroke := by
    norm_num [gShortSwingarm, createDefaultGeometry]
  exact ⟨(c7_fallback_triangle gShortSwingarm hdeg hs).1,
    (c7_fallback_triangle gShortSwingarm hdeg hs).2.2.2.2⟩

/-- The degenerate branch of `calculateStateAtShockStroke`, taken
exactly when the circle intersection is empty. -/
lemma calcState_of_empty (g : BikeGeometry) (rt : RigidTriangle)
    (s : ℝ) (hne : strokeEyeCandidates g s = []) :
    calculateStateAtShockStroke s g rt =
      { travelMM := 0
        rearAxlePosition := ⟨0, rearWheelRadius g⟩
        bbPosition := ⟨0, g.bbHeight⟩
        pivotPosition := topOutPivot g
        swingarmEyePosition := ⟨0, 0⟩
        shockLength := g.shockETE - s
        pitchAngleDegrees := 0 } := by
  simp [calculateStateAtShockStroke, hne]

/-- C1 (amended): for a geometry whose top-out solve takes no fallback
branch (and with positive shock-mount radius and swingarm length),
every state of the analysis whose per-stroke circle intersection is
non-empty has its three pairwise pivot/eye/axle distances exactly equal
to those of the zero-stroke (top-out) state — in particular within the
0.1mm tolerance.  (Degenerate interior states, where the intersection
is empty, do not satisfy this; see the counterexample.) -/
theorem c1_rigid_triangle_invariance (g : BikeGeometry)
    (h2 : (topOutEyeCandidates g).length = 2)
    (hh : 0 ≤ horizontalDistSquared g)
    (hr : 0 < g.shockSwingarmMountDistance)
    (hL : 0 < g.swingarmLength)
    (i : ℕ) (si s0 : KinematicState)
    (hsi : (runKinematicAnalysis g).states[i]? = some si)
    (hs0 : (runKinematicAnalysis g).states[0]? = some s0)
    (hne : strokeEyeCandidates g ((i : ℝ) * 0.5) ≠ []) :
    distance si.pivotPosition si.swingarmEyePosition
      = distance s0.pivotPosition s0.swingarmEyePosition
    ∧ distance si.pivotPosition si.rearAxlePosition
      = distance s0.pivotPosition s0.rearAxlePosition
    ∧ distance si.swingarmEyePosition si.rearAxlePosition
      = distance s0.swingarmEyePosition s0.rearAxlePosition := by
  obtain ⟨hi, rfl⟩ := states_get?_some hsi
  obtain ⟨hi0, rfl⟩ := states_get?_some hs0
  have hne0 : strokeEyeCandidates g (((0 : ℕ) : ℝ) * 0.5) ≠ [] := by
    have heq : strokeEyeCandidates g (((0 : ℕ) : ℝ) * 0.5) = topOutEyeCandidates g := by
      rw [strokeEyeCandidates, topOutEyeCandidates]
      norm_num
    rw [heq]
    intro hnil
    rw [hnil] at h2
    simp at h2
  have hA := triangle_dists_of_valid g h2 hh hr hL ((i : ℝ) * 0.5) hne
  have hB := triangle_dists_of_valid g h2 hh hr hL (((0 : ℕ) : ℝ) * 0.5) hne0
  simp only [secondPass_pivot, secondPass_eye, secondPass_rearAxle, firstPassAt]
  refine ⟨?_, ?_, ?_⟩
  · rw [hA.1, hB.1]
  · rw [hA.2.1, hB.2.1]
  · rw [hA.2.2, hB.2.2]

/-! ### Concrete evaluations at the counterexample geometries -/

lemma gIS_dist :
    distance (topOutPivot gInvalidStroke) (topOutFrameMount gInvalidStroke) = 50 := by
  simp only [distance, topOutPivot, topOutFrameMount, gInvalidStroke, createDefaultGeometry]
  norm_num
  apply sqrt_eq_of_sq _ _ (by norm_num)
  norm_num

lemma gIS_h2 : (topOutEyeCandidates gInvalidStroke).length = 2 := by
  simp only [topOutEyeCandidates, circleCircleIntersection]
  rw [if_neg]
  · rfl
  · apply guard_false_of_bounds _ _ _ (by rw [gIS_dist]; norm_num) <;>
      rw [gIS_dist] <;>
      norm_num [gInvalidStroke, createDefaultGeometry]

lemma gIS_hh : 0 ≤ horizontalDistSquared gInvalidStroke := by
  norm_num [horizontalDistSquared, verticalDist, rearWheelRadius, topOutPivot,
    gInvalidStroke, createDefaultGeometry]

lemma gIS_steps : strokeSteps gInvalidStroke = 161 := by
  have h : gInvalidStroke.shockStroke = 80 := rfl
  rw [strokeSteps, h]
  norm_num
  rfl

lemma gIS_stroke0_ne : strokeEyeCandidates gInvalidStroke (((0 : ℕ) : ℝ) * 0.5) ≠ [] := by
  simp only [strokeEyeCandidates, circleCircleIntersection]
  rw [if_neg]
  · exact List.cons_ne_nil _ _
  · apply guard_false_of_bounds _ _ _ (by rw [gIS_dist]; norm_num) <;>
      rw [gIS_dist] <;>
      norm_num [gInvalidStroke, createDefaultGeometry]

lemma gIS_stroke1_ne : strokeEyeCandidates gInvalidStroke (((1 : ℕ) : ℝ) * 0.5) ≠ [] := by
  simp only [strokeEyeCandidates, circleCircleIntersection]
  rw [if_neg]
  · exact List.cons_ne_nil _ _
  · apply guard_false_of_bounds _ _ _ (by rw [gIS_dist]; norm_num) <;>
      rw [gIS_dist] <;>
      norm_num [gInvalidStroke, createDefaultGeometry]

/-- Witness for the amended C1 at the stroke-80 mount geometry, sample
index 1 against sample index 0. -/
theorem c1_rigid_triangle_invariance_witness :
    (runKinematicAnalysis gInvalidStroke).states[1]?
        = some (secondPassState gInvalidStroke (strokeSteps gInvalidStroke) 1)
    ∧ distance (secondPassState gInvalidStroke (strokeSteps gInvalidStroke) 1).pivotPosition
        (secondPassState gInvalidStroke (strokeSteps gInvalidStroke) 1).swingarmEyePosition
      = distance (secondPassState gInvalidStroke (strokeSteps gInvalidStroke) 0).pivotPosition
        (secondPassState gInvalidStroke (strokeSteps gInvalidStroke) 0).swingarmEyePosition := by
  have hget1 : (runKinematicAnalysis gInvalidStroke).states[1]?
      = some (secondPassState gInvalidStroke (strokeSteps gInvalidStroke) 1) :=
    states_get?_eq gInvalidStroke 1 (by rw [gIS_steps]; norm_num)
  have hget0 : (runKinematicAnalysis gInvalidStroke).states[0]?
      = some (secondPassState gInvalidStroke (strokeSteps gInvalidStroke) 0) :=
    states_get?_eq gInvalidStroke 0 (by rw [gIS_steps]; norm_num)
  exact ⟨hget1,
    (c1_rigid_triangle_invariance gInvalidStroke gIS_h2 gIS_hh
      (by norm_num [gInvalidStroke, createDefaultGeometry])
      (by norm_num [gInvalidStroke, createDefaultGeometry])
      1 _ _ hget1 hget0 gIS_stroke1_ne).1⟩

/-- Counterexample to C1 as stated: `gInvalidStroke` is valid (its
top-out solve takes no fallback branch), yet at sample index 150
(stroke 75mm) the circle intersection is empty, the sampler emits its
degenerate state, and the pivot-to-eye distance differs from the
top-out value by 350mm — far beyond the 0.1mm tolerance. -/
theorem c1_counterexample :
    (topOutEyeCandidates gInvalidStroke).length = 2
    ∧ 0 ≤ horizontalDistSquared gInvalidStroke
    ∧ (runKinematicAnalysis gInvalidStroke).states[150]?
        = some (secondPassState gInvalidStroke (strokeSteps gInvalidStroke) 150)
    ∧ (runKinematicAnalysis gInvalidStroke).states[0]?
        = some (secondPassState gInvalidStroke (strokeSteps gInvalidStroke) 0)
    ∧ 0.1 < |distance
          (secondPassState gInvalidStroke (strokeSteps gInvalidStroke) 150).pivotPosition
          (secondPassState gInvalidStroke (strokeSteps gInvalidStroke) 150).swingarmEyePosition
        - distance
          (secondPassState gInvalidStroke (strokeSteps gInvalidStroke) 0).pivotPosition
          (secondPassState gInvalidStroke (strokeSteps gInvalidStroke) 0).swingarmEyePosition| := by
  have hget150 : (runKinematicAnalysis gInvalidStroke).states[150]?
      = some (secondPassState gInvalidStroke (strokeSteps gInvalidStroke) 150) :=
    states_get?_eq gInvalidStroke 150 (by rw [gIS_steps]; norm_num)
  have hget0 : (runKinematicAnalysis gInvalidStroke).states[0]?
      = some (secondPassState gInvalidStroke (strokeSteps gInvalidStroke) 0) :=
    states_get?_eq gInvalidStroke 0 (by rw [gIS_steps]; norm_num)
  have hempty : strokeEyeCandidates gInvalidStroke (((150 : ℕ) : ℝ) * 0.5) = [] := by
    simp only [strokeEyeCandidates, circleCircleIntersection]
    rw [if_pos]
    right
    left
    rw [gIS_dist]
    have hr1 : gInvalidStroke.shockSwingarmMountDistance = 190 := rfl
    have hET : gInvalidStroke.shockETE = 210 := rfl
    have hval : (190 : ℝ) - (210 - ((150 : ℕ) : ℝ) * 0.5) = 55 := by
      push_cast
      norm_num
    rw [hr1, hET, hval, abs_of_nonneg (by norm_num : (0 : ℝ) ≤ 55)]
    norm_num
  have hdeg := calcState_of_empty gInvalidStroke (establishRigidTriangle gInvalidStroke)
    (((150 : ℕ) : ℝ) * 0.5) hempty
  have hd150 : distance
      (secondPassState gInvalidStroke (strokeSteps gInvalidStroke) 150).pivotPosition
      (secondPassState gInvalidStroke (strokeSteps gInvalidStroke) 150).swingarmEyePosition
      = 540 := by
    rw [secondPass_pivot, secondPass_eye, firstPassAt, hdeg]
    simp only [distance, topOutPivot, gInvalidStroke, createDefaultGeometry]
    norm_num
    apply sqrt_eq_of_sq _ _ (by norm_num)
    norm_num
  have hd0 : distance
      (secondPassState gInvalidStroke (strokeSteps gInvalidStroke) 0).pivotPosition
      (secondPassState gInvalidStroke (strokeSteps gInvalidStroke) 0).swingarmEyePosition
      = 190 := by
    rw [secondPass_pivot, secondPass_eye, firstPassAt]
    have hA := triangle_dists_of_valid gInvalidStroke gIS_h2 gIS_hh
      (by norm_num [gInvalidStroke, createDefaultGeometry])
      (by norm_num [gInvalidStroke, createDefaultGeometry])
      (((0 : ℕ) : ℝ) * 0.5) gIS_stroke0_ne
    rw [hA.1]
    norm_num [gInvalidStroke, createDefaultGeometry]
  refine ⟨gIS_h2, gIS_hh, hget150, hget0, ?_⟩
  rw [hd150, hd0]
  rw [abs_of_nonneg (by norm_num)]
  norm_num

/-- C2 (amended): when the per-stroke circle intersection is empty,
`calculateStateAtShockStroke` returns exactly the well-formed degenerate
first-pass state of its guard branch (axle at `(0, wheelRadius)`, BB at
`(0, bbHeight)`, zero travel and pitch).  This is the only guarded
failure: the function has no separate law-of-cosines domain check. -/
theorem c2_degenerate_state_on_empty_intersection (g : BikeGeometry) (rt : RigidTriangle)
    (s : ℝ) (hne : strokeEyeCandidates g s = []) :
    calculateStateAtShockStroke s g rt =
      { travelMM := 0
        rearAxlePosition := ⟨0, rearWheelRadius g⟩
        bbPosition := ⟨0, g.bbHeight⟩
        pivotPosition := topOutPivot g
        swingarmEyePosition := ⟨0, 0⟩
        shockLength := g.shockETE - s
        pitchAngleDegrees := 0 } :=
  calcState_of_empty g rt s hne

lemma calcState_travel (s : ℝ) (g : BikeGeometry) (rt : RigidTriangle)
    (hne : strokeEyeCandidates g s ≠ []) :
    (calculateStateAtShockStroke s g rt).travelMM
      = |g.bbHeight - (g.bbHeight - strokeGroundOffset g rt s)| := by
  simp only [calculateStateAtShockStroke]
  rw [if_neg (length_ne_zero_of_ne_nil hne)]

lemma gSS_dist :
    distance (topOutPivot gShortSwingarm) (topOutFrameMount gShortSwingarm) = 50 := by
  simp only [distance, topOutPivot, topOutFrameMount, gShortSwingarm, createDefaultGeometry]
  norm_num
  apply sqrt_eq_of_sq _ _ (by norm_num)
  norm_num

lemma gSS_h2 : (topOutEyeCandidates gShortSwingarm).length = 2 := by
  simp only [topOutEyeCandidates, circleCircleIntersection]
  rw [if_neg]
  · rfl
  · apply guard_false_of_bounds _ _ _ (by rw [gSS_dist]; norm_num) <;>
      rw [gSS_dist] <;>
      norm_num [gShortSwingarm, createDefaultGeometry]

/-- The short-swingarm geometry drives `establishRigidTriangle` into its
fallback branch through the negative Pythagorean term. -/
lemma gSS_fb : establishRigidTriangle gShortSwingarm = fallbackTriangle gShortSwingarm := by
  rw [establishRigidTriangle, if_neg (by simp [gSS_h2]), if_pos]
  norm_num [horizontalDistSquared, verticalDist, rearWheelRadius, topOutPivot,
    gShortSwingarm, createDefaultGeometry]

lemma gSS_ne0 : strokeEyeCandidates gShortSwingarm 0 ≠ [] := by
  simp only [strokeEyeCandidates, circleCircleIntersection]
  rw [if_neg]
  · exact List.cons_ne_nil _ _
  · apply guard_false_of_bounds _ _ _ (by rw [gSS_dist]; norm_num) <;>
      rw [gSS_dist] <;>
      norm_num [gShortSwingarm, createDefaultGeometry]

/-- Counterexample to C2 as stated: at the short-swingarm geometry
(stroke 0, which lies in `[0, shockStroke]`) the circle intersection
succeeds, but the law-of-cosines value for the fallback rigid triangle
is `19/2`, outside the domain of `Math.acos` — in JavaScript the
resulting state is `NaN`-filled, not the well-formed degenerate state
(in the total real-number model its travel is at least 155mm) — so its
`travelMM` is not the degenerate state's zero. -/
theorem c2_counterexample :
    strokeEyeCandidates gShortSwingarm 0 ≠ []
    ∧ 1 < strokeCosAngle gShortSwingarm (establishRigidTriangle gShortSwingarm) 0
    ∧ (calculateStateAtShockStroke 0 gShortSwingarm
        (establishRigidTriangle gShortSwingarm)).travelMM ≠ 0 := by
  have hidx : (establishRigidTriangle gShortSwingarm).correctEyeIndex = 0
      ∨ (establishRigidTriangle gShortSwingarm).correctEyeIndex = 1 := by
    left
    rw [gSS_fb]
    rfl
  have hEye := strokeEyeDist gShortSwingarm (establishRigidTriangle gShortSwingarm) 0
    gSS_ne0 hidx (by norm_num [gShortSwingarm, createDefaultGeometry])
  have hb : (establishRigidTriangle gShortSwingarm).pivotToAxle = 10 := by
    rw [gSS_fb]
    rfl
  have he : (establishRigidTriangle gShortSwingarm).eyeToAxle = 10 := by
    rw [gSS_fb]
    rfl
  have hr1 : gShortSwingarm.shockSwingarmMountDistance = 190 := rfl
  have hcos : strokeCosAngle gShortSwingarm (establishRigidTriangle gShortSwingarm) 0
      = 19 / 2 := by
    rw [strokeCosAngle]
    rw [hEye, hb, he, hr1]
    norm_num
  refine ⟨gSS_ne0, by rw [hcos]; norm_num, ?_⟩
  rw [calcState_travel 0 gShortSwingarm (establishRigidTriangle gShortSwingarm) gSS_ne0]
  have hgo : strokeGroundOffset gShortSwingarm (establishRigidTriangle gShortSwingarm) 0
      = (topOutPivot gShortSwingarm).y
        + (establishRigidTriangle gShortSwingarm).pivotToAxle
          * Real.sin (strokeAxleAngle gShortSwingarm (establishRigidTriangle gShortSwingarm) 0)
        - rearWheelRadius gShortSwingarm := rfl
  have hPy : (topOutPivot gShortSwingarm).y = 540 := by
    simp only [topOutPivot, gShortSwingarm, createDefaultGeometry]
    norm_num
  have hWR : rearWheelRadius gShortSwingarm = 375 := by
    simp only [rearWheelRadius, gShortSwingarm, createDefaultGeometry]
    norm_num
  have hsin := Real.neg_one_le_sin
    (strokeAxleAngle gShortSwingarm (establishRigidTriangle gShortSwingarm) 0)
  have hpos : 0 < strokeGroundOffset gShortSwingarm (establishRigidTriangle gShortSwingarm) 0 := by
    rw [hgo, hPy, hWR, hb]
    nlinarith [hsin]
  have habs : gShortSwingarm.bbHeight
      - (gShortSwingarm.bbHeight
        - strokeGroundOffset gShortSwingarm (establishRigidTriangle gShortSwingarm) 0)
      = strokeGroundOffset gShortSwingarm (establishRigidTriangle gShortSwingarm) 0 := by
    ring
  rw [habs, abs_of_pos hpos]
  exact ne_of_gt hpos

/-- Witness for the amended C2: a geometry whose shock frame mount is
1000mm from the pivot, so the intersection is empty at stroke 0. -/
theorem c2_degenerate_state_witness :
    strokeEyeCandidates gFarMount 0 = []
    ∧ calculateStateAtShockStroke 0 gFarMount (establishRigidTriangle gFarMount) =
      { travelMM := 0
        rearAxlePosition := ⟨0, rearWheelRadius gFarMount⟩
        bbPosition := ⟨0, gFarMount.bbHeight⟩
        pivotPosition := topOutPivot gFarMount
        swingarmEyePosition := ⟨0, 0⟩
        shockLength := gFarMount.shockETE - 0
        pitchAngleDegrees := 0 } := by
  have hd : distance (topOutPivot gFarMount) (topOutFrameMount gFarMount) = 1000 := by
    simp only [distance, topOutPivot, topOutFrameMount, gFarMount, createDefaultGeometry]
    norm_num
    rw [show (1000000 : ℝ) = 1000 * 1000 by norm_num, Real.sqrt_mul_self (by norm_num)]
  have hne : strokeEyeCandidates gFarMount 0 = [] := by
    simp only [strokeEyeCandidates, circleCircleIntersection]
    rw [if_pos]
    left
    rw [hd]
    norm_num [gFarMount, createDefaultGeometry]
  exact ⟨hne, c2_degenerate_state_on_empty_intersection gFarMount _ 0 hne⟩

/-- C6: `circleCircleIntersection` is empty exactly for coincident
centres, nested circles, or disjoint circles; otherwise it returns
exactly two points, and externally tangent circles yield two coincident
points. -/
theorem c6_circle_intersection_cases (c1 : Point2D) (r1 : ℝ) (c2 : Point2D) (r2 : ℝ) :
    (circleCircleIntersection c1 r1 c2 r2 = [] ↔
      distance c1 c2 = 0 ∨ distance c1 c2 < |r1 - r2| ∨ r1 + r2 < distance c1 c2)
    ∧ (¬(distance c1 c2 = 0 ∨ distance c1 c2 < |r1 - r2| ∨ r1 + r2 < distance c1 c2) →
        (circleCircleIntersection c1 r1 c2 r2).length = 2)
    ∧ (0 ≤ r1 → 0 ≤ r2 → distance c1 c2 ≠ 0 → distance c1 c2 = r1 + r2 →
        ∃ p, circleCircleIntersection c1 r1 c2 r2 = [p, p]) := by
  refine ⟨⟨?_, ?_⟩, ?_, ?_⟩
  · intro h
    by_cases hG : distance c1 c2 > r1 + r2 ∨ distance c1 c2 < |r1 - r2|
        ∨ distance c1 c2 = 0
    · simp only [gt_iff_lt] at hG
      tauto
    · exfalso
      simp only [circleCircleIntersection] at h
      rw [if_neg hG] at h
      exact List.cons_ne_nil _ _ h
  · intro h
    have hG : distance c1 c2 > r1 + r2 ∨ distance c1 c2 < |r1 - r2|
        ∨ distance c1 c2 = 0 := by
      simp only [gt_iff_lt]
      tauto
    simp only [circleCircleIntersection]
    rw [if_pos hG]
  · intro h
    have hG : ¬(distance c1 c2 > r1 + r2 ∨ distance c1 c2 < |r1 - r2|
        ∨ distance c1 c2 = 0) := by
      simp only [gt_iff_lt]
      tauto
    simp only [circleCircleIntersection]
    rw [if_neg hG]
    rfl
  · intro hr1 hr2 hd0 htan
    have hsum : r1 + r2 ≠ 0 := htan ▸ hd0
    have hG : ¬(distance c1 c2 > r1 + r2 ∨ distance c1 c2 < |r1 - r2|
        ∨ distance c1 c2 = 0) := by
      push_neg
      refine ⟨le_of_eq htan, ?_, hd0⟩
      rw [htan, abs_sub_le_iff]
      constructor <;> linarith
    simp only [circleCircleIntersection]
    rw [if_neg hG]
    have ha : ccA c1 r1 c2 r2 = r1 := by
      rw [ccA]
      rw [htan]
      field_simp
      ring
    have hh0 : ccH c1 r1 c2 r2 = 0 := by
      rw [ccH, ha]
      simp
    refine ⟨ccP1 c1 r1 c2 r2, ?_⟩
    have hPP : ccP2 c1 r1 c2 r2 = ccP1 c1 r1 c2 r2 := by
      simp only [ccP1, ccP2, hh0]
      simp
    rw [hPP]

/-- Witness for C6: two externally tangent circles yield two coincident
points. -/
theorem c6_circle_intersection_cases_witness :
    ∃ p, circleCircleIntersection ⟨0, 0⟩ 2 ⟨5, 0⟩ 3 = [p, p] := by
  have hd : distance (⟨0, 0⟩ : Point2D) (⟨5, 0⟩ : Point2D) = 5 := by
    simp only [distance]
    norm_num
    rw [show (25 : ℝ) = 5 * 5 by norm_num, Real.sqrt_mul_self (by norm_num)]
  exact (c6_circle_intersection_cases ⟨0, 0⟩ 2 ⟨5, 0⟩ 3).2.2 (by norm_num) (by norm_num)
    (by rw [hd]; norm_num) (by rw [hd]; norm_num)

/-- C8: `calculateChainLength` returns the raw centre distance when one
circle is nested (distance below the radius difference), and otherwise
the two-tangent-plus-two-arcs chain length. -/
theorem c8_chain_length_formula (p q : Point2D) (r1 r2 : ℝ) :
    (distance p q < |r1 - r2| → calculateChainLength p q r1 r2 = distance p q)
    ∧ (¬ distance p q < |r1 - r2| →
        calculateChainLength p q r1 r2 =
          2 * Real.sqrt ((distance p q) ^ 2 - (r1 - r2) ^ 2)
            + r1 * (Real.pi + Real.arcsin ((r1 - r2) / distance p q))
            + r2 * (Real.pi - Real.arcsin ((r1 - r2) / distance p q))) := by
  constructor
  · intro h
    simp only [calculateChainLength]
    rw [if_pos h]
  · intro h
    simp only [calculateChainLength]
    rw [if_neg h,
      show distance p q * distance p q - (r1 - r2) * (r1 - r2)
        = (distance p q) ^ 2 - (r1 - r2) ^ 2 by ring]

/-- Witness for C8: both branches at concrete circles (nested, then
equal radii at distance 5). -/
theorem c8_chain_length_formula_witness :
    calculateChainLength ⟨0, 0⟩ ⟨5, 0⟩ 0 10 = distance ⟨0, 0⟩ ⟨5, 0⟩
    ∧ calculateChainLength ⟨0, 0⟩ ⟨5, 0⟩ 3 3 =
        2 * Real.sqrt ((distance (⟨0, 0⟩ : Point2D) (⟨5, 0⟩ : Point2D)) ^ 2 - (3 - 3) ^ 2)
          + 3 * (Real.pi + Real.arcsin ((3 - 3) / distance (⟨0, 0⟩ : Point2D) (⟨5, 0⟩ : Point2D)))
          + 3 * (Real.pi - Real.arcsin ((3 - 3) / distance (⟨0, 0⟩ : Point2D) (⟨5, 0⟩ : Point2D))) := by
  have hd : distance (⟨0, 0⟩ : Point2D) (⟨5, 0⟩ : Point2D) = 5 := by
    simp only [distance]
    norm_num
    rw [show (25 : ℝ) = 5 * 5 by norm_num, Real.sqrt_mul_self (by norm_num)]
  exact ⟨(c8_chain_length_formula ⟨0, 0⟩ ⟨5, 0⟩ 0 10).1 (by rw [hd]; norm_num),
    (c8_chain_length_formula ⟨0, 0⟩ ⟨5, 0⟩ 3 3).2 (by rw [hd]; norm_num)⟩

/-- C9 (amended): `tangentPoints`, under the JavaScript number
semantics, produces four real (non-`NaN`) coordinates whenever the
centres are distinct or the radii differ — the clamp keeps the `asin`
argument in `[-1, 1]` in every case except the `0 / 0` ratio. -/
theorem c9_tangent_points_clamped (c1 : Point2D) (r1 : ℝ) (c2 : Point2D) (r2 : ℝ)
    (h : ¬(c2.x - c1.x = 0 ∧ c2.y - c1.y = 0 ∧ r1 - r2 = 0)) :
    JNum.isReal (tangentPointsJS c1 r1 c2 r2).startX = true
    ∧ JNum.isReal (tangentPointsJS c1 r1 c2 r2).startY = true
    ∧ JNum.isReal (tangentPointsJS c1 r1 c2 r2).endX = true
    ∧ JNum.isReal (tangentPointsJS c1 r1 c2 r2).endY = true := by
  have key : ∃ w : ℝ, jasin (jmaxReal (-1) (jminReal 1
      (jdiv (r1 - r2)
        (Real.sqrt ((c2.x - c1.x) * (c2.x - c1.x) + (c2.y - c1.y) * (c2.y - c1.y))))))
      = JNum.real w := by
    by_cases hz : Real.sqrt ((c2.x - c1.x) * (c2.x - c1.x)
        + (c2.y - c1.y) * (c2.y - c1.y)) = 0
    · have hsum : (c2.x - c1.x) * (c2.x - c1.x) + (c2.y - c1.y) * (c2.y - c1.y) ≤ 0 :=
        Real.sqrt_eq_zero'.1 hz
      have hx : c2.x - c1.x = 0 := by
        have hx2 : (c2.x - c1.x) * (c2.x - c1.x) = 0 := by
          nlinarith [mul_self_nonneg (c2.x - c1.x), mul_self_nonneg (c2.y - c1.y)]
        exact mul_self_eq_zero.1 hx2
      have hy : c2.y - c1.y = 0 := by
        have hy2 : (c2.y - c1.y) * (c2.y - c1.y) = 0 := by
          nlinarith [mul_self_nonneg (c2.x - c1.x), mul_self_nonneg (c2.y - c1.y)]
        exact mul_self_eq_zero.1 hy2
      have hr : r1 - r2 ≠ 0 := fun hrr => h ⟨hx, hy, hrr⟩
      rw [hz, jdiv, if_pos rfl, if_neg hr]
      by_cases hpos : 0 < r1 - r2
      · rw [if_pos hpos]
        refine ⟨Real.arcsin 1, ?_⟩
        simp [jminReal, jmaxReal, jasin]
      · rw [if_neg hpos]
        refine ⟨Real.arcsin (-1), ?_⟩
        simp [jminReal, jmaxReal, jasin]
    · rw [jdiv, if_neg hz]
      refine ⟨Real.arcsin (max (-1) (min 1 ((r1 - r2) /
        Real.sqrt ((c2.x - c1.x) * (c2.x - c1.x) + (c2.y - c1.y) * (c2.y - c1.y))))), ?_⟩
      rw [jminReal, jmaxReal, jasin, if_pos]
      exact ⟨le_max_left _ _, max_le (by norm_num) (min_le_left _ _)⟩
  obtain ⟨w, hw⟩ := key
  simp only [tangentPointsJS]
  rw [hw]
  simp [jaddReal, jsubReal, jmulReal, jsin, jcos, JNum.isReal]

/-- Witness for the amended C9 at distinct centres. -/
theorem c9_tangent_points_clamped_witness :
    JNum.isReal (tangentPointsJS ⟨0, 0⟩ 1 ⟨5, 0⟩ 1).startX = true
    ∧ JNum.isReal (tangentPointsJS ⟨0, 0⟩ 1 ⟨5, 0⟩ 1).startY = true
    ∧ JNum.isReal (tangentPointsJS ⟨0, 0⟩ 1 ⟨5, 0⟩ 1).endX = true
    ∧ JNum.isReal (tangentPointsJS ⟨0, 0⟩ 1 ⟨5, 0⟩ 1).endY = true :=
  c9_tangent_points_clamped ⟨0, 0⟩ 1 ⟨5, 0⟩ 1 (by norm_num)

/-- Counterexample to C9 as stated: with coincident centres and equal
(non-negative) radii the ratio fed to the clamp is `0 / 0 = NaN`,
`Math.min`/`Math.max` propagate it through the clamp, and all four
returned coordinates are `NaN`. -/
theorem c9_counterexample :
    (tangentPointsJS ⟨0, 0⟩ 1 ⟨0, 0⟩ 1).startX = JNum.nan
    ∧ (tangentPointsJS ⟨0, 0⟩ 1 ⟨0, 0⟩ 1).startY = JNum.nan
    ∧ (tangentPointsJS ⟨0, 0⟩ 1 ⟨0, 0⟩ 1).endX = JNum.nan
    ∧ (tangentPointsJS ⟨0, 0⟩ 1 ⟨0, 0⟩ 1).endY = JNum.nan := by
  simp [tangentPointsJS, jdiv, jminReal, jmaxReal, jasin, jaddReal, jsubReal,
    jmulReal, jsin, jcos]

end

end MTB
